/-
  Verification of the tabbed-interface web component
  (repository: aarongustafson/tabbed-interface, src/tabbed-interface.js,
  second `TabbedInterfaceElement` class variant — the evolved design).

  The development shallowly embeds:
  * the section parser (`#parseContentIntoSections` plus the heading-tag
    detection loop of `#initializeTabs`),
  * the tab controller state machine (`#activateTab`, `#applyDefaultTab`,
    `next`/`previous`/`first`/`last`, the `activeIndex` setter,
    `#handleKeydown`/`#navigate*`, `#handleHashChange`,
    `attributeChangedCallback`, `#initializeTabs`).

  DOM nodes are modelled as a flat list of element/text nodes carrying the
  fields the component reads (tag name, id, `data-tab-short-name`, and an
  abstract "subtree contains a focusable element" flag standing for the
  result of `querySelector` over the focusable-element selector).  Attribute
  mutations on the generated tab/panel elements become boolean fields;
  dispatched `tabbed-interface:change` events are collected in an event log;
  `scrollIntoView` calls are counted; browser focus is tracked as an
  abstract host-focus value.  Comment nodes and other node types, which the
  component skips, are outside the model.
-/
import Mathlib

namespace TabbedUI

/-! ## Generic list helpers -/

/-- In-place update of the element at position `i` (identity when `i` is out
of range), mirroring a JavaScript indexed write guarded by a bounds check. -/
def modifyAt (f : α → α) : Nat → List α → List α
  | _, [] => []
  | 0, a :: as => f a :: as
  | n + 1, a :: as => a :: modifyAt f n as

theorem length_modifyAt (f : α → α) (i : Nat) (l : List α) :
    (modifyAt f i l).length = l.length := by
  induction l generalizing i with
  | nil => cases i <;> rfl
  | cons a as ih => cases i with
    | zero => rfl
    | succ n => simpa [modifyAt] using ih n

theorem getD_modifyAt (f : α → α) (i : Nat) (l : List α) (j : Nat) (d : α) :
    (modifyAt f i l).getD j d =
      if i = j ∧ j < l.length then f (l.getD j d) else l.getD j d := by
  induction l generalizing i j with
  | nil => cases i <;> simp [modifyAt]
  | cons a as ih =>
    cases i with
    | zero =>
      cases j with
      | zero => simp [modifyAt]
      | succ m => simp [modifyAt]
    | succ n =>
      cases j with
      | zero => simp [modifyAt]
      | succ m =>
        simp only [modifyAt, List.getD_cons_succ, ih, List.length_cons]
        by_cases h : n = m ∧ m < as.length
        · rw [if_pos h, if_pos ⟨by omega, by omega⟩]
        · rw [if_neg h, if_neg (by omega)]

theorem map_modifyAt (f : α → α) (g : α → β) (i : Nat) (l : List α)
    (h : ∀ a, g (f a) = g a) :
    (modifyAt f i l).map g = l.map g := by
  induction l generalizing i with
  | nil => cases i <;> rfl
  | cons a as ih => cases i with
    | zero => simp [modifyAt, h]
    | succ n => simp [modifyAt, ih]

theorem getD_modifyAt_proj (f : α → α) (g : α → β) (i j : Nat) (l : List α)
    (d : α) (h : ∀ a, g (f a) = g a) :
    g ((modifyAt f i l).getD j d) = g (l.getD j d) := by
  rw [getD_modifyAt]
  by_cases hc : i = j ∧ j < l.length
  · rw [if_pos hc, h]
  · rw [if_neg hc]

/-- Option-valued first-match index, the model of JavaScript
`Array.prototype.findIndex` (with `-1` modelled as `none`) and of the
first-match `for` loop in `#handleHashChange`. -/
def findIdxOpt (p : α → Bool) : List α → Option Nat
  | [] => none
  | a :: l => if p a then some 0 else (findIdxOpt p l).map (· + 1)

theorem findIdxOpt_lt_length {p : α → Bool} {l : List α} {i : Nat}
    (h : findIdxOpt p l = some i) : i < l.length := by
  induction l generalizing i with
  | nil => simp [findIdxOpt] at h
  | cons a as ih =>
    rw [findIdxOpt] at h
    by_cases hp : p a
    · rw [if_pos hp] at h
      cases h
      simp
    · rw [if_neg hp] at h
      match hm : findIdxOpt p as with
      | none => rw [hm] at h; simp at h
      | some k =>
        rw [hm] at h
        simp only [Option.map_some'] at h
        cases h
        have := ih hm
        simp only [List.length_cons]
        omega

theorem findIdxOpt_comp (q : β → Bool) (f : α → β) (l : List α) :
    findIdxOpt (fun a => q (f a)) l = findIdxOpt q (l.map f) := by
  induction l with
  | nil => rfl
  | cons a as ih => by_cases h : q (f a) <;> simp [findIdxOpt, h, ih]

theorem findIdxOpt_congr {p q : α → Bool} {l : List α}
    (h : ∀ a ∈ l, p a = q a) : findIdxOpt p l = findIdxOpt q l := by
  induction l with
  | nil => rfl
  | cons a as ih =>
    have ha := h a (List.mem_cons_self ..)
    have ih' := ih (fun x hx => h x (List.mem_cons_of_mem _ hx))
    simp [findIdxOpt, ha, ih']

theorem range_filter_eq_single (n a : Nat) (p : Nat → Bool)
    (hp : ∀ j, j < n → p j = decide (j = a)) (ha : a < n) :
    (List.range n).filter p = [a] := by
  induction n with
  | zero => omega
  | succ m ih =>
    rw [List.range_succ, List.filter_append]
    by_cases hm : a = m
    · have hnil : (List.range m).filter p = [] := by
        rw [List.filter_eq_nil_iff]
        intro j hj
        have hjm : j < m := List.mem_range.mp hj
        rw [hp j (by omega)]
        simp
        omega
      have hpm : p m = true := by rw [hp m (by omega)]; simp [hm]
      simp [hnil, hpm, hm]
    · have ham : a < m := by omega
      have hpm : p m = false := by
        rw [hp m (by omega)]; simp; omega
      rw [ih (fun j hj => hp j (by omega)) ham]
      simp [hpm]

/-! ## Data model: slotted DOM nodes and parsed sections -/

/-- A slotted element node, restricted to the fields the component reads.
`focusable` abstracts "the element's subtree matches the focusable-element
selector used by the Enter/Space handler". -/
structure Elem where
  tag : String
  id : String
  shortName : Option String
  focusable : Bool
deriving Repr, DecidableEq, Inhabited

/-- A slotted content node (element or text). -/
inductive Node where
  | element (e : Elem)
  | text (s : String)
deriving Repr, DecidableEq

/-- A node stored in a section's content list: either an original element
node, or the `span` wrapper created for a non-empty text node. -/
inductive ContentNode where
  | elem (e : Elem)
  | span (s : String)
deriving Repr, DecidableEq

/-- A parsed section: an original heading element plus its content nodes. -/
structure Section where
  heading : Elem
  content : List ContentNode
deriving Repr, DecidableEq

instance : Inhabited Section := ⟨⟨default, []⟩⟩

/-- Model of `String.prototype.toLowerCase()` over the character list (the
core library's `String.toLower` is equivalent but, being defined by
well-founded recursion over positions, does not reduce inside the
kernel). -/
def lowerStr (s : String) : String :=
  String.mk (s.data.map Char.toLower)

/-- Model of `String.prototype.trim()`: strip leading and trailing
whitespace characters. -/
def jsTrim (s : String) : String :=
  String.mk
    (((s.data.dropWhile Char.isWhitespace).reverse.dropWhile
      Char.isWhitespace).reverse)

/-- Model of `String.prototype.slice(1)`: drop the first character. -/
def dropFirst (s : String) : String :=
  String.mk (s.data.drop 1)

/-- Lower-cased heading tag of a tag name when it matches the heading
pattern `/^H([1-6])$/i`, else `none`. -/
def headingTagOf (tag : String) : Option String :=
  let l := lowerStr tag
  if l = "h1" ∨ l = "h2" ∨ l = "h3" ∨ l = "h4" ∨ l = "h5" ∨ l = "h6" then
    some l
  else none

/-- The heading-tag detection loop at the top of `#initializeTabs`: the
lower-cased tag of the first element node matching the heading pattern. -/
def findHeadingTag : List Node → Option String
  | [] => none
  | .element e :: rest =>
    match headingTagOf e.tag with
    | some t => some t
    | none => findHeadingTag rest
  | .text _ :: rest => findHeadingTag rest

/-- Whether a node is an element whose lower-cased tag equals the fixed
section tag (the `node.tagName.toLowerCase() === headingTag` test). -/
def isSectionHeading (t : String) : Node → Bool
  | .element e => lowerStr e.tag == t
  | .text _ => false

/-- The accumulator loop of `#parseContentIntoSections`: `cur` is the
`currentSection` variable (emitted when a new section-tag heading appears
and flushed at the end of the scan). -/
def parseAux (t : String) : List Node → Option Section → List Section
  | [], none => []
  | [], some cur => [cur]
  | .element e :: rest, cur =>
    if lowerStr e.tag == t then
      match cur with
      | some c => c :: parseAux t rest (some ⟨e, []⟩)
      | none => parseAux t rest (some ⟨e, []⟩)
    else
      match cur with
      | some c => parseAux t rest (some ⟨c.heading, c.content ++ [.elem e]⟩)
      | none => parseAux t rest none
  | .text s :: rest, cur =>
    if jsTrim s ≠ "" then
      match cur with
      | some c => parseAux t rest (some ⟨c.heading, c.content ++ [.span s]⟩)
      | none => parseAux t rest none
    else parseAux t rest cur

/-- `#parseContentIntoSections(nodes, headingTag)`. -/
def parseContentIntoSections (nodes : List Node) (t : String) : List Section :=
  parseAux t nodes none

/-- The section list a Build pass works from: empty when no heading is
found, else the parse with the detected section tag. -/
def buildSections (nodes : List Node) : List Section :=
  match findHeadingTag nodes with
  | none => []
  | some t => parseContentIntoSections nodes t

/-! ### Spec-side parser model (for the refinement claim about the parser)

These definitions follow the specification's words (spec.md §4.1): every
non-heading element node becomes content, a non-empty text node becomes a
wrapped inline container, section-tag headings delimit sections, nodes
before the first section-tag heading are discarded. -/

/-- Content contributed by one node per the spec: any element node is
content; a text node is content exactly when its trimmed text is non-empty
(wrapped in an inline container); otherwise nothing. -/
def specContent : Node → Option ContentNode
  | .element e => some (.elem e)
  | .text s => if jsTrim s = "" then none else some (.span s)

@[simp] theorem isSectionHeading_element (t : String) (e : Elem) :
    isSectionHeading t (.element e) = (lowerStr e.tag == t) := rfl

@[simp] theorem isSectionHeading_text (t : String) (s : String) :
    isSectionHeading t (.text s) = false := rfl

@[simp] theorem specContent_element (e : Elem) :
    specContent (.element e) = some (.elem e) := rfl

@[simp] theorem specContent_text (s : String) :
    specContent (.text s) = if jsTrim s = "" then none else some (.span s) :=
  rfl

/-- Spec-side parse: each section-tag heading starts a section whose content
is every content-producing node up to the next section-tag heading; nodes
before the first section-tag heading produce nothing. -/
def sectionsSpec (t : String) : List Node → List Section
  | [] => []
  | n :: rest =>
    match n with
    | .element e =>
      if lowerStr e.tag == t then
        ⟨e, (rest.takeWhile (fun m => !isSectionHeading t m)).filterMap
            specContent⟩ :: sectionsSpec t rest
      else sectionsSpec t rest
    | .text _ => sectionsSpec t rest

/-- Spec-side section tag: the heading tag of the first element node that
matches the heading pattern, in document order. -/
def firstHeadingTagSpec (nodes : List Node) : Option String :=
  (nodes.filterMap fun n =>
    match n with
    | .element e => headingTagOf e.tag
    | .text _ => none).head?

theorem parseAux_some (t : String) (nodes : List Node) (h : Elem)
    (acc : List ContentNode) :
    parseAux t nodes (some ⟨h, acc⟩) =
      ⟨h, acc ++ (nodes.takeWhile (fun m => !isSectionHeading t m)).filterMap
          specContent⟩ :: sectionsSpec t nodes := by
  induction nodes generalizing h acc with
  | nil => simp [parseAux, sectionsSpec]
  | cons n rest ih =>
    cases n with
    | element e =>
      by_cases he : (lowerStr e.tag == t) = true
      · rw [show parseAux t (Node.element e :: rest) (some ⟨h, acc⟩)
              = ⟨h, acc⟩ :: parseAux t rest (some ⟨e, []⟩) by
            simp [parseAux, he]]
        rw [ih]
        simp [sectionsSpec, he, List.takeWhile_cons]
      · rw [show parseAux t (Node.element e :: rest) (some ⟨h, acc⟩)
              = parseAux t rest (some ⟨h, acc ++ [ContentNode.elem e]⟩) by
            simp [parseAux, he]]
        rw [ih]
        simp [sectionsSpec, he, List.takeWhile_cons]
    | text s =>
      by_cases hs : jsTrim s = ""
      · rw [show parseAux t (Node.text s :: rest) (some ⟨h, acc⟩)
              = parseAux t rest (some ⟨h, acc⟩) by
            simp [parseAux, hs]]
        rw [ih]
        simp [sectionsSpec, hs, List.takeWhile_cons]
      · rw [show parseAux t (Node.text s :: rest) (some ⟨h, acc⟩)
              = parseAux t rest (some ⟨h, acc ++ [ContentNode.span s]⟩) by
            simp [parseAux, hs]]
        rw [ih]
        simp [sectionsSpec, hs, List.takeWhile_cons]

theorem parseAux_none (t : String) (nodes : List Node) :
    parseAux t nodes none = sectionsSpec t nodes := by
  induction nodes with
  | nil => rfl
  | cons n rest ih =>
    cases n with
    | element e =>
      by_cases he : (lowerStr e.tag == t) = true
      · rw [show parseAux t (Node.element e :: rest) none
              = parseAux t rest (some ⟨e, []⟩) by simp [parseAux, he]]
        rw [parseAux_some]
        simp [sectionsSpec, he]
      · rw [show parseAux t (Node.element e :: rest) none
              = parseAux t rest none by simp [parseAux, he]]
        rw [ih]
        simp [sectionsSpec, he]
    | text s =>
      by_cases hs : jsTrim s = ""
      · rw [show parseAux t (Node.text s :: rest) none
              = parseAux t rest none by simp [parseAux, hs]]
        rw [ih]
        simp [sectionsSpec]
      · rw [show parseAux t (Node.text s :: rest) none
              = parseAux t rest none by simp [parseAux, hs]]
        rw [ih]
        simp [sectionsSpec]


theorem findHeadingTag_eq_spec (nodes : List Node) :
    findHeadingTag nodes = firstHeadingTagSpec nodes := by
  induction nodes with
  | nil => rfl
  | cons n rest ih =>
    cases n with
    | element e =>
      cases h : headingTagOf e.tag with
      | none => simpa [findHeadingTag, firstHeadingTagSpec, h] using ih
      | some t => simp [findHeadingTag, firstHeadingTagSpec, h]
    | text s => simpa [findHeadingTag, firstHeadingTagSpec] using ih

/-! ## Data model: the tab controller -/

/-- Observable state of one generated tab button: its `id` attribute, its
`aria-selected` attribute (with the `part="tab selected"` marker, always set
together), and whether its `tabindex` attribute is `"0"` (versus `"-1"`). -/
structure Tab where
  id : String
  selected : Bool
  tabindexZero : Bool
deriving Repr, DecidableEq

instance : Inhabited Tab := ⟨⟨"", false, false⟩⟩

/-- Observable state of one generated tab panel.  `headingId` is the `id` of
the cloned heading (clones keep the original's id), `originalId` its
`data-original-id` back-reference, `headingHidden` whether the cloned
heading carries the `visually-hidden` class, and `hasFocusable` whether the
panel's subtree matches the focusable-element selector. -/
structure Panel where
  id : String
  hidden : Bool
  headingId : String
  originalId : String
  headingHidden : Bool
  hasFocusable : Bool
deriving Repr, DecidableEq

instance : Inhabited Panel := ⟨⟨"", false, "", "", false, false⟩⟩

/-- Detail payload of a dispatched `tabbed-interface:change` event. -/
structure ChangeEvent where
  tabId : String
  tabpanelId : String
  tabIndex : Nat
deriving Repr, DecidableEq

/-- Where browser focus was last moved by the component: onto a tab button,
or onto the first focusable descendant of a panel. -/
inductive HostFocus where
  | tab (i : Nat)
  | panelContent (i : Nat)
deriving Repr, DecidableEq

/-- Current values of the observed configuration attributes
(`show-headers`, `tablist-after`, `default-tab`, `auto-activate`), as the
property getters read them.  `defaultTab := none` models an absent
attribute. -/
structure Attrs where
  showHeaders : Bool := false
  tablistAfter : Bool := false
  defaultTab : Option String := none
  autoActivate : Bool := false
deriving Repr, DecidableEq

/-- The controller's state: the private fields of the element plus the
externally observable effects (event log, scroll count, host focus, slot
visibility). -/
structure Controller where
  baseId : String := ""
  tabs : List Tab := []
  panels : List Panel := []
  hasCustomTitle : List Bool := []
  activeIndex : Nat := 0
  focusedIndex : Nat := 0
  initialized : Bool := false
  hasTablist : Bool := false
  tablistAfterPos : Bool := false
  slotVisible : Bool := false
  events : List ChangeEvent := []
  scrolls : Nat := 0
  hostFocus : Option HostFocus := none
deriving Repr, DecidableEq

/-- State of a freshly constructed (or torn-down) element, before any Build:
no tabs, no panels, uninitialized, slot content hidden by the shadow
template. -/
def initController : Controller := {}

/-! ## Controller operations -/

/-- Tab id synthesized at index `i`: `baseId + "-tab-" + i`. -/
def mkTabId (base : String) (i : Nat) : String :=
  base ++ "-tab-" ++ toString i

/-- Panel id synthesized at index `i`: `baseId + "-panel-" + i`. -/
def mkPanelId (base : String) (i : Nat) : String :=
  base ++ "-panel-" ++ toString i

/-- `#activateTab(index)`.  No-op when `index` is out of range, or equal to
the active index while initialized.  Otherwise: deactivate the pair at the
current active index (selection off, out of tab order, panel hidden),
activate the pair at `index`, update both indices, and dispatch one change
event carrying the new tab's id, the new panel's id, and the index.  The
source's bounds guards `if (this.#tabs[...])` are subsumed by `modifyAt`
being the identity out of range. -/
def activateTab (c : Controller) (index : Int) : Controller :=
  if index < 0 ∨ (c.tabs.length : Int) ≤ index then c
  else if index = (c.activeIndex : Int) ∧ c.initialized = true then c
  else
    let i := index.toNat
    let tabs1 := modifyAt (fun t => { t with selected := false, tabindexZero := false })
      c.activeIndex c.tabs
    let panels1 := modifyAt (fun p => { p with hidden := true }) c.activeIndex c.panels
    let tabs2 := modifyAt (fun t => { t with selected := true, tabindexZero := true })
      i tabs1
    let panels2 := modifyAt (fun p => { p with hidden := false }) i panels1
    { c with
      tabs := tabs2
      panels := panels2
      activeIndex := i
      focusedIndex := i
      events := c.events ++
        [{ tabId := (tabs2.getD i default).id,
           tabpanelId := (panels2.getD i default).id,
           tabIndex := i }] }

/-- The `activeIndex` property setter: activate only when the requested
index is within `[0, tabs.length)`. -/
def setActiveIndex (c : Controller) (index : Int) : Controller :=
  if 0 ≤ index ∧ index < (c.tabs.length : Int) then activateTab c index else c

/-- Effect of calling `.focus()` on the tab button at index `i`: browser
focus moves to the button and the tab's `focus` listener runs, recording the
focused index and, in auto-activate configuration, activating the tab
(idempotent when the tab is already active). -/
def focusTab (c : Controller) (auto : Bool) (i : Nat) : Controller :=
  let c1 := { c with focusedIndex := i, hostFocus := some (.tab i) }
  if auto then activateTab c1 (i : Int) else c1

/-- The public `next()` method. -/
def next (c : Controller) (auto : Bool) : Controller :=
  if c.tabs.length = 0 then c
  else
    let nextIndex := (c.activeIndex + 1) % c.tabs.length
    focusTab (activateTab c (nextIndex : Int)) auto nextIndex

/-- The public `previous()` method; `(i - 1 + n) % n` computed in `Nat` as
`(i + n - 1) % n`, identical for `0 ≤ i` and `1 ≤ n`. -/
def previous (c : Controller) (auto : Bool) : Controller :=
  if c.tabs.length = 0 then c
  else
    let prevIndex := (c.activeIndex + c.tabs.length - 1) % c.tabs.length
    focusTab (activateTab c (prevIndex : Int)) auto prevIndex

/-- The public `first()` method. -/
def first (c : Controller) (auto : Bool) : Controller :=
  if c.tabs.length = 0 then c
  else focusTab (activateTab c (0 : Int)) auto 0

/-- The public `last()` method. -/
def last (c : Controller) (auto : Bool) : Controller :=
  if c.tabs.length = 0 then c
  else
    let lastIndex := c.tabs.length - 1
    focusTab (activateTab c (lastIndex : Int)) auto lastIndex

/-- `#navigateNext()`: in auto-activate mode step from the active index and
activate the destination; in manual mode step from the focused index and
move only focus.  Either way the destination tab receives browser focus. -/
def navigateNext (c : Controller) (auto : Bool) : Controller :=
  if c.tabs.length = 0 then c
  else
    let currentFocus := if auto then c.activeIndex else c.focusedIndex
    let nextIndex := (currentFocus + 1) % c.tabs.length
    let c1 := if auto then activateTab c (nextIndex : Int)
              else { c with focusedIndex := nextIndex }
    focusTab c1 auto nextIndex

/-- `#navigatePrevious()`. -/
def navigatePrevious (c : Controller) (auto : Bool) : Controller :=
  if c.tabs.length = 0 then c
  else
    let currentFocus := if auto then c.activeIndex else c.focusedIndex
    let prevIndex := (currentFocus + c.tabs.length - 1) % c.tabs.length
    let c1 := if auto then activateTab c (prevIndex : Int)
              else { c with focusedIndex := prevIndex }
    focusTab c1 auto prevIndex

/-- `#navigateFirst()`. -/
def navigateFirst (c : Controller) (auto : Bool) : Controller :=
  if c.tabs.length = 0 then c
  else
    let c1 := if auto then activateTab c (0 : Int)
              else { c with focusedIndex := 0 }
    focusTab c1 auto 0

/-- `#navigateLast()`. -/
def navigateLast (c : Controller) (auto : Bool) : Controller :=
  if c.tabs.length = 0 then c
  else
    let lastIndex := c.tabs.length - 1
    let c1 := if auto then activateTab c (lastIndex : Int)
              else { c with focusedIndex := lastIndex }
    focusTab c1 auto lastIndex

/-- Keys the `#handleKeydown` switch recognizes; `other` stands for every
key with no case (the handler does nothing for those). -/
inductive Key where
  | arrowLeft | arrowUp | arrowRight | arrowDown
  | home | endKey | enter | space | other
deriving Repr, DecidableEq

/-- `#handleKeydown(event, tabIndex)`.  Arrow keys and Home/End delegate to
the navigation helpers; Enter/Space activates the focused tab when
auto-activate is off and then moves browser focus to the first focusable
descendant of the active panel, if any. -/
def handleKeydown (c : Controller) (auto : Bool) (key : Key) : Controller :=
  match key with
  | .arrowLeft | .arrowUp => navigatePrevious c auto
  | .arrowRight | .arrowDown => navigateNext c auto
  | .home => navigateFirst c auto
  | .endKey => navigateLast c auto
  | .enter | .space =>
    let c1 := if auto = false then activateTab c (c.focusedIndex : Int) else c
    if (c1.panels.getD c1.activeIndex default).hasFocusable then
      { c1 with hostFocus := some (.panelContent c1.activeIndex) }
    else c1
  | .other => c

/-- Model of the `Number(defaultTab)` conversion combined with the
`Number.isInteger` test used by `#applyDefaultTab`: `some k` when the
trimmed string is an optionally signed decimal integer literal (JavaScript
`Number` ignores surrounding whitespace, and a whitespace-only string
converts to `0`).  Other numeric notations accepted by JavaScript (hex,
exponent, fractional forms such as `"2.0"`) are outside the model and are
conservatively treated as failing the integer test. -/
def jsIntOfString (s : String) : Option Int :=
  let t := jsTrim s
  if t = "" then some 0
  else
    match t.toList with
    | '-' :: ds =>
      if ds ≠ [] ∧ ds.all Char.isDigit then
        some (-(ds.foldl (fun acc c => acc * 10 + (c.toNat - 48)) 0 : Nat))
      else none
    | '+' :: ds =>
      if ds ≠ [] ∧ ds.all Char.isDigit then
        some ((ds.foldl (fun acc c => acc * 10 + (c.toNat - 48)) 0 : Nat))
      else none
    | ds =>
      if ds ≠ [] ∧ ds.all Char.isDigit then
        some ((ds.foldl (fun acc c => acc * 10 + (c.toNat - 48)) 0 : Nat))
      else none

/-- The per-panel predicate of `#applyDefaultTab`'s identifier lookup:
`const originalId = heading.dataset.originalId || heading.id || ''` followed
by `originalId === defaultTab || heading.id === defaultTab`.  The cloned
heading always exists and is the panel's first child. -/
def panelMatches (p : Panel) (s : String) : Bool :=
  let originalId := if p.originalId ≠ "" then p.originalId
                    else if p.headingId ≠ "" then p.headingId else ""
  originalId == s || p.headingId == s

/-- The identifier branch of `#applyDefaultTab`: activate the first panel
whose heading identifier matches the directive, else fall back to index
0. -/
def defaultTabByMatch (c : Controller) (s : String) : Controller :=
  match findIdxOpt (fun p => panelMatches p s) c.panels with
  | some i => activateTab c (i : Int)
  | none => activateTab c 0

/-- `#applyDefaultTab({ force })`: no-op without tabs or when uninitialized
and not forced; otherwise resolve the `default-tab` attribute — absent or
empty activates index 0, an in-range non-negative integer activates that
index, else the first panel whose heading identifier matches, else index
0. -/
def applyDefaultTab (c : Controller) (directive : Option String)
    (force : Bool) : Controller :=
  if c.tabs.length = 0 then c
  else if c.initialized = false ∧ force = false then c
  else
    match directive with
    | none => activateTab c 0
    | some s =>
      if s = "" then activateTab c 0
      else
        match jsIntOfString s with
        | some k =>
          if 0 ≤ k ∧ k < (c.tabs.length : Int) then activateTab c k
          else defaultTabByMatch c s
        | none => defaultTabByMatch c s

/-- The per-panel predicate of `#handleHashChange`'s lookup:
`heading.id === targetId || heading.dataset.originalId === targetId`. -/
def hashMatches (p : Panel) (targetId : String) : Bool :=
  p.headingId == targetId || p.originalId == targetId

/-- Index of the first panel whose heading matches a URL fragment. -/
def hashTargetIndex (c : Controller) (targetId : String) : Option Nat :=
  findIdxOpt (fun p => hashMatches p targetId) c.panels

/-- `#handleHashChange()`, with `hash` standing for `window.location.hash`
(empty, or `"#"` followed by the fragment).  When initialized and the hash
is non-empty, activate the first panel whose heading id or original-heading
id equals the fragment and scroll the tablist into view. -/
def handleHashChange (c : Controller) (hash : String) : Controller :=
  if hash = "" ∨ c.initialized = false then c
  else
    let targetId := dropFirst hash
    match hashTargetIndex c targetId with
    | none => c
    | some i =>
      let c1 := activateTab c (i : Int)
      if c1.hasTablist then { c1 with scrolls := c1.scrolls + 1 } else c1

/-- The panel loop of `#updateHeaderVisibility`: each cloned heading's
`visually-hidden` class becomes `!showHeaders && !hasCustomTitle[index]`
(an index beyond the custom-title list reads as `undefined`, i.e. false). -/
def setHeadingHidden (sh : Bool) : List Panel → List Bool → List Panel
  | [], _ => []
  | p :: ps, [] =>
    { p with headingHidden := !sh } :: setHeadingHidden sh ps []
  | p :: ps, b :: bs =>
    { p with headingHidden := !sh && !b } :: setHeadingHidden sh ps bs

/-- `#updateHeaderVisibility()`. -/
def updateHeaderVisibility (c : Controller) (showHeaders : Bool) : Controller :=
  { c with panels := setHeadingHidden showHeaders c.panels c.hasCustomTitle }

/-- `#updateTablistPosition()`: relocate the already-built tablist (no-op
when no tablist exists). -/
def updateTablistPosition (c : Controller) (tablistAfter : Bool) : Controller :=
  if c.hasTablist = false then c
  else { c with tablistAfterPos := tablistAfter }

/-- The four observed attributes. -/
inductive AttrName where
  | showHeaders | tablistAfter | defaultTab | autoActivate
deriving Repr, DecidableEq

/-- `attributeChangedCallback(name, oldValue, newValue)`: ignored when the
value did not change or the controller is uninitialized; otherwise apply the
matching reconfiguration reaction (reading the attribute's current value
from `attrs`). -/
def attributeChangedCallback (c : Controller) (attrs : Attrs)
    (name : AttrName) (oldV newV : Option String) : Controller :=
  if oldV = newV ∨ c.initialized = false then c
  else
    match name with
    | .showHeaders => updateHeaderVisibility c attrs.showHeaders
    | .tablistAfter => updateTablistPosition c attrs.tablistAfter
    | .defaultTab => applyDefaultTab c attrs.defaultTab false
    | .autoActivate => { c with focusedIndex := c.activeIndex }

/-- `#resetInternalState()`. -/
def resetInternalState (c : Controller) : Controller :=
  { c with
    hasTablist := false
    tabs := []
    panels := []
    hasCustomTitle := []
    activeIndex := 0
    focusedIndex := 0
    initialized := false }

/-- Truthiness of `section.heading.dataset.tabShortName` (an empty string is
falsy in JavaScript). -/
def hasCustomTitleOf (e : Elem) : Bool :=
  match e.shortName with
  | some s => s ≠ ""
  | none => false

/-- Whether a stored content node contributes a focusable descendant to the
panel (the spans created for text nodes never do). -/
def contentFocusable : ContentNode → Bool
  | .elem e => e.focusable
  | .span _ => false

/-- The tab built for index `i` (index 0 starts selected and in tab
order). -/
def mkTab (base : String) (i : Nat) : Tab :=
  { id := mkTabId base i, selected := i == 0, tabindexZero := i == 0 }

/-- Tabs for indices `i, i+1, …, i+m-1`. -/
def buildTabsFrom (base : String) : Nat → Nat → List Tab
  | _, 0 => []
  | i, m + 1 => mkTab base i :: buildTabsFrom base (i + 1) m

/-- The panel built for a section at index `i`: hidden unless index 0,
cloned heading keeping the original id and back-referencing it via
`data-original-id`, `visually-hidden` on the heading unless headers are
shown or a custom short title is present. -/
def mkPanel (base : String) (showHeaders : Bool) (i : Nat) (s : Section) :
    Panel :=
  { id := mkPanelId base i
    hidden := i != 0
    headingId := s.heading.id
    originalId := s.heading.id
    headingHidden := !showHeaders && !hasCustomTitleOf s.heading
    hasFocusable := s.heading.focusable || s.content.any contentFocusable }

/-- Panels for the sections, numbered from `i`. -/
def buildPanelsFrom (base : String) (showHeaders : Bool) :
    Nat → List Section → List Panel
  | _, [] => []
  | i, s :: ss => mkPanel base showHeaders i s ::
      buildPanelsFrom base showHeaders (i + 1) ss

/-- `#initializeTabs()`: reset, detect the heading tag, parse sections; with
no sections restore the slotted content; otherwise build tabs and panels,
place the tablist, resolve the default tab (forced), mark initialized, and
align the focused index.  `base` is the element's id at Build time (the
host-provided id, or the random token generated once and persisted). -/
def initializeTabs (c : Controller) (attrs : Attrs) (base : String)
    (nodes : List Node) : Controller :=
  let c0 := resetInternalState c
  match findHeadingTag nodes with
  | none => { c0 with slotVisible := true }
  | some tag =>
    let sections := parseContentIntoSections nodes tag
    if sections.length = 0 then { c0 with slotVisible := true }
    else
      let c1 := { c0 with
        slotVisible := false
        baseId := base
        hasTablist := true
        tablistAfterPos := attrs.tablistAfter
        tabs := buildTabsFrom base 0 sections.length
        panels := buildPanelsFrom base attrs.showHeaders 0 sections
        hasCustomTitle := sections.map fun s => hasCustomTitleOf s.heading }
      let c2 := applyDefaultTab c1 attrs.defaultTab true
      let c3 := { c2 with initialized := true }
      { c3 with focusedIndex := c3.activeIndex }

/-! ## Invariants and spec-side resolution -/

/-- Whether the tab at position `j` carries exactly the attributes its
index relative to the active index demands. -/
def tabOk (c : Controller) (j : Nat) : Bool :=
  ((c.tabs.getD j default).selected == decide (j = c.activeIndex)) &&
  ((c.tabs.getD j default).tabindexZero == decide (j = c.activeIndex))

/-- Whether the panel at position `j` is hidden exactly when inactive. -/
def panelOk (c : Controller) (j : Nat) : Bool :=
  (c.panels.getD j default).hidden == decide (¬j = c.activeIndex)

/-- Well-formedness of a controller: as many tabs as panels, the active
index in range when pairs exist, selection and tab order exactly at the
active index, and every panel but the active one hidden. -/
def wf (c : Controller) : Bool :=
  (c.tabs.length == c.panels.length) &&
  (c.tabs.length == 0 || decide (c.activeIndex < c.tabs.length)) &&
  (List.range c.tabs.length).all (tabOk c) &&
  (List.range c.panels.length).all (panelOk c)

/-- Indices whose tab is selected and whose panel is shown. -/
def activePairs (c : Controller) : List Nat :=
  (List.range c.tabs.length).filter fun j =>
    (c.tabs.getD j default).selected && !(c.panels.getD j default).hidden

/-- Default-tab resolution as the specification words it: absent (or empty)
directive activates index 0; a non-negative integer directive within range
activates that index; any other directive activates the first panel whose
original-heading identifier matches, falling back to index 0.  The numeric
reading of the directive is shared with the implementation model
(`jsIntOfString`). -/
def resolveDefaultTabSpec (directive : Option String)
    (headingIds : List String) : Nat :=
  match directive with
  | none => 0
  | some s =>
    if s = "" then 0
    else
      match jsIntOfString s with
      | some k =>
        if 0 ≤ k ∧ k < (headingIds.length : Int) then k.toNat
        else (findIdxOpt (fun hid => hid == s) headingIds).getD 0
      | none => (findIdxOpt (fun hid => hid == s) headingIds).getD 0

/-! ## Well-formedness lemmas -/

theorem wf_iff (c : Controller) :
    wf c = true ↔
      c.tabs.length = c.panels.length ∧
      (c.tabs.length = 0 ∨ c.activeIndex < c.tabs.length) ∧
      (∀ j, j < c.tabs.length →
        (c.tabs.getD j default).selected = decide (j = c.activeIndex) ∧
        (c.tabs.getD j default).tabindexZero = decide (j = c.activeIndex)) ∧
      (∀ j, j < c.panels.length →
        (c.panels.getD j default).hidden = decide (¬j = c.activeIndex)) := by
  simp only [wf, tabOk, panelOk, Bool.and_eq_true, List.all_eq_true,
    List.mem_range, Bool.or_eq_true, beq_iff_eq, decide_eq_true_eq,
    and_assoc, forall_and]

theorem wf_lengths {c : Controller} (h : wf c = true) :
    c.tabs.length = c.panels.length := ((wf_iff c).mp h).1

theorem wf_active_lt {c : Controller} (h : wf c = true)
    (hn : 0 < c.tabs.length) : c.activeIndex < c.tabs.length := by
  rcases ((wf_iff c).mp h).2.1 with h0 | hlt
  · omega
  · exact hlt

theorem wf_tab {c : Controller} (h : wf c = true) {j : Nat}
    (hj : j < c.tabs.length) :
    (c.tabs.getD j default).selected = decide (j = c.activeIndex) ∧
    (c.tabs.getD j default).tabindexZero = decide (j = c.activeIndex) :=
  ((wf_iff c).mp h).2.2.1 j hj

theorem wf_panel {c : Controller} (h : wf c = true) {j : Nat}
    (hj : j < c.panels.length) :
    (c.panels.getD j default).hidden = decide (¬j = c.activeIndex) :=
  ((wf_iff c).mp h).2.2.2 j hj

theorem activePairs_of_wf {c : Controller} (h : wf c = true)
    (hn : 0 < c.tabs.length) : activePairs c = [c.activeIndex] := by
  have hl := wf_lengths h
  refine range_filter_eq_single _ _ _ (fun j hj => ?_) (wf_active_lt h hn)
  have ht := (wf_tab h hj).1
  have hp := wf_panel h (hl ▸ hj)
  rw [ht, hp]
  by_cases hje : j = c.activeIndex <;> simp [hje]

/-! ## Activation lemmas -/

theorem tab_set_getD_id (b1 b2 : Bool) (i j : Nat) (l : List Tab) (d : Tab) :
    ((modifyAt (fun t => { t with selected := b1, tabindexZero := b2 }) i
      l).getD j d).id = (l.getD j d).id :=
  getD_modifyAt_proj _ _ _ _ _ _ (fun _ => rfl)

theorem panel_hide_getD_id (b : Bool) (i j : Nat) (l : List Panel)
    (d : Panel) :
    ((modifyAt (fun p => { p with hidden := b }) i l).getD j d).id
      = (l.getD j d).id :=
  getD_modifyAt_proj _ _ _ _ _ _ (fun _ => rfl)

theorem panel_hide_getD_hasFocusable (b : Bool) (i j : Nat) (l : List Panel)
    (d : Panel) :
    ((modifyAt (fun p => { p with hidden := b }) i l).getD j d).hasFocusable
      = (l.getD j d).hasFocusable :=
  getD_modifyAt_proj _ _ _ _ _ _ (fun _ => rfl)

theorem tab_set_map_id (b1 b2 : Bool) (i : Nat) (l : List Tab) :
    (modifyAt (fun t => { t with selected := b1, tabindexZero := b2 }) i
      l).map Tab.id = l.map Tab.id :=
  map_modifyAt _ _ _ _ (fun _ => rfl)

theorem panel_hide_map_id (b : Bool) (i : Nat) (l : List Panel) :
    (modifyAt (fun p => { p with hidden := b }) i l).map Panel.id
      = l.map Panel.id :=
  map_modifyAt _ _ _ _ (fun _ => rfl)

theorem panel_hide_map_headingId (b : Bool) (i : Nat) (l : List Panel) :
    (modifyAt (fun p => { p with hidden := b }) i l).map Panel.headingId
      = l.map Panel.headingId :=
  map_modifyAt _ _ _ _ (fun _ => rfl)

theorem panel_hide_map_originalId (b : Bool) (i : Nat) (l : List Panel) :
    (modifyAt (fun p => { p with hidden := b }) i l).map Panel.originalId
      = l.map Panel.originalId :=
  map_modifyAt _ _ _ _ (fun _ => rfl)

theorem activateTab_noop {c : Controller} {index : Int}
    (h : index < 0 ∨ (c.tabs.length : Int) ≤ index ∨
      (index = (c.activeIndex : Int) ∧ c.initialized = true)) :
    activateTab c index = c := by
  unfold activateTab
  rcases h with h | h | h
  · rw [if_pos (Or.inl h)]
  · rw [if_pos (Or.inr h)]
  · by_cases hb : index < 0 ∨ (c.tabs.length : Int) ≤ index
    · rw [if_pos hb]
    · rw [if_neg hb, if_pos h]

theorem activateTab_eq (c : Controller) (i : Nat) (hi : i < c.tabs.length)
    (hgo : ¬(i = c.activeIndex ∧ c.initialized = true)) :
    activateTab c (i : Int) = { c with
      tabs := modifyAt (fun t => { t with selected := true, tabindexZero := true }) i
        (modifyAt (fun t => { t with selected := false, tabindexZero := false })
          c.activeIndex c.tabs)
      panels := modifyAt (fun p => { p with hidden := false }) i
        (modifyAt (fun p => { p with hidden := true }) c.activeIndex c.panels)
      activeIndex := i
      focusedIndex := i
      events := c.events ++
        [{ tabId := (c.tabs.getD i default).id,
           tabpanelId := (c.panels.getD i default).id,
           tabIndex := i }] } := by
  have h1 : ¬((i : Int) < 0 ∨ (c.tabs.length : Int) ≤ (i : Int)) := by
    omega
  have h2 : ¬((i : Int) = (c.activeIndex : Int) ∧ c.initialized = true) := by
    rintro ⟨ha, hb⟩
    exact hgo ⟨by exact_mod_cast ha, hb⟩
  unfold activateTab
  rw [if_neg h1, if_neg h2]
  simp only [Int.toNat_natCast]
  rw [tab_set_getD_id, tab_set_getD_id, panel_hide_getD_id,
    panel_hide_getD_id]

theorem wf_activateTab (c : Controller) (i : Nat) (hwf : wf c = true)
    (hi : i < c.tabs.length)
    (hgo : ¬(i = c.activeIndex ∧ c.initialized = true)) :
    wf (activateTab c (i : Int)) = true := by
  rw [activateTab_eq c i hi hgo, wf_iff]
  have hl := wf_lengths hwf
  refine ⟨?_, ?_, ?_, ?_⟩
  · simp [length_modifyAt, hl]
  · right
    simpa [length_modifyAt] using hi
  · intro j hj
    simp only [length_modifyAt] at hj
    rw [getD_modifyAt, getD_modifyAt, length_modifyAt]
    by_cases hji : i = j
    · rw [if_pos ⟨hji, hj⟩]
      subst hji
      simp
    · rw [if_neg (by tauto)]
      by_cases hja : c.activeIndex = j
      · rw [if_pos ⟨hja, hj⟩]
        simp [Ne.symm hji]
      · rw [if_neg (by tauto)]
        have := wf_tab hwf hj
        rw [this.1, this.2]
        constructor <;> simp <;> omega
  · intro j hj
    simp only [length_modifyAt] at hj
    rw [getD_modifyAt, getD_modifyAt, length_modifyAt]
    by_cases hji : i = j
    · rw [if_pos ⟨hji, hj⟩]
      subst hji
      simp
    · rw [if_neg (by tauto)]
      by_cases hja : c.activeIndex = j
      · rw [if_pos ⟨hja, hj⟩]
        simp [Ne.symm hji]
      · rw [if_neg (by tauto)]
        have := wf_panel hwf hj
        rw [this]
        simp
        omega

theorem activateTab_spec (c : Controller) (i : Nat) (hwf : wf c = true)
    (hi : i < c.tabs.length)
    (hgo : ¬(i = c.activeIndex ∧ c.initialized = true)) :
    (activateTab c (i : Int)).activeIndex = i ∧
    (activateTab c (i : Int)).focusedIndex = i ∧
    (activateTab c (i : Int)).tabs.length = c.tabs.length ∧
    (activateTab c (i : Int)).panels.length = c.panels.length ∧
    wf (activateTab c (i : Int)) = true ∧
    (activateTab c (i : Int)).initialized = c.initialized ∧
    (activateTab c (i : Int)).baseId = c.baseId ∧
    (activateTab c (i : Int)).hasTablist = c.hasTablist ∧
    (activateTab c (i : Int)).slotVisible = c.slotVisible ∧
    (activateTab c (i : Int)).scrolls = c.scrolls ∧
    (activateTab c (i : Int)).hostFocus = c.hostFocus ∧
    (activateTab c (i : Int)).hasCustomTitle = c.hasCustomTitle ∧
    (activateTab c (i : Int)).events = c.events ++
      [{ tabId := (c.tabs.getD i default).id,
         tabpanelId := (c.panels.getD i default).id,
         tabIndex := i }] ∧
    (activateTab c (i : Int)).panels.map Panel.headingId =
      c.panels.map Panel.headingId ∧
    (activateTab c (i : Int)).panels.map Panel.originalId =
      c.panels.map Panel.originalId ∧
    (activateTab c (i : Int)).tabs.map Tab.id = c.tabs.map Tab.id ∧
    (activateTab c (i : Int)).panels.map Panel.id = c.panels.map Panel.id ∧
    (∀ j, ((activateTab c (i : Int)).panels.getD j default).hasFocusable =
      (c.panels.getD j default).hasFocusable) := by
  have hwf' := wf_activateTab c i hwf hi hgo
  rw [activateTab_eq c i hi hgo] at hwf' ⊢
  refine ⟨rfl, rfl, by simp [length_modifyAt], by simp [length_modifyAt],
    hwf', rfl, rfl, rfl, rfl, rfl, rfl, rfl, rfl, ?_, ?_, ?_, ?_, ?_⟩
  · exact (panel_hide_map_headingId _ _ _).trans (panel_hide_map_headingId _ _ _)
  · exact (panel_hide_map_originalId _ _ _).trans (panel_hide_map_originalId _ _ _)
  · exact (tab_set_map_id _ _ _ _).trans (tab_set_map_id _ _ _ _)
  · exact (panel_hide_map_id _ _ _).trans (panel_hide_map_id _ _ _)
  · intro j
    rw [show ({ c with
        tabs := modifyAt (fun t => { t with selected := true, tabindexZero := true }) i
          (modifyAt (fun t => { t with selected := false, tabindexZero := false })
            c.activeIndex c.tabs)
        panels := modifyAt (fun p => { p with hidden := false }) i
          (modifyAt (fun p => { p with hidden := true }) c.activeIndex c.panels)
        activeIndex := i
        focusedIndex := i
        events := c.events ++
          [{ tabId := (c.tabs.getD i default).id,
             tabpanelId := (c.panels.getD i default).id,
             tabIndex := i }] } : Controller).panels
        = modifyAt (fun p => { p with hidden := false }) i
          (modifyAt (fun p => { p with hidden := true }) c.activeIndex c.panels)
        from rfl]
    rw [panel_hide_getD_hasFocusable, panel_hide_getD_hasFocusable]

theorem activateTab_active (c : Controller) (i : Nat) (hwf : wf c = true)
    (hi : i < c.tabs.length) :
    (activateTab c (i : Int)).activeIndex = i ∧
    wf (activateTab c (i : Int)) = true ∧
    (activateTab c (i : Int)).initialized = c.initialized ∧
    (activateTab c (i : Int)).tabs.length = c.tabs.length ∧
    (activateTab c (i : Int)).panels.length = c.panels.length ∧
    (activateTab c (i : Int)).panels.map Panel.headingId =
      c.panels.map Panel.headingId ∧
    (activateTab c (i : Int)).panels.map Panel.originalId =
      c.panels.map Panel.originalId ∧
    (∀ j, ((activateTab c (i : Int)).panels.getD j default).hasFocusable =
      (c.panels.getD j default).hasFocusable) ∧
    (activateTab c (i : Int)).hasTablist = c.hasTablist ∧
    (activateTab c (i : Int)).scrolls = c.scrolls ∧
    (activateTab c (i : Int)).hostFocus = c.hostFocus := by
  by_cases hgo : i = c.activeIndex ∧ c.initialized = true
  · have hno : activateTab c (i : Int) = c :=
      activateTab_noop (Or.inr (Or.inr ⟨by exact_mod_cast hgo.1, hgo.2⟩))
    rw [hno]
    exact ⟨hgo.1.symm, hwf, rfl, rfl, rfl, rfl, rfl, fun j => rfl, rfl, rfl,
      rfl⟩
  · obtain ⟨h1, _, h3, h4, h5, h6, _, h8, _, h10, h11, _, _, h14, h15, _, _,
      h18⟩ := activateTab_spec c i hwf hi hgo
    exact ⟨h1, h5, h6, h3, h4, h14, h15, h18, h8, h10, h11⟩

/-! ## Navigation lemmas -/

theorem hop_spec (c : Controller) (auto : Bool) (d : Nat)
    (hwf : wf c = true) (hd : d < c.tabs.length)
    (hinit : c.initialized = true) :
    (focusTab (activateTab c (d : Int)) auto d).activeIndex = d ∧
    (focusTab (activateTab c (d : Int)) auto d).focusedIndex = d := by
  obtain ⟨ha, hw, hi, hl, _, _, _, _⟩ := activateTab_active c d hwf hd
  unfold focusTab
  by_cases hauto : auto
  · rw [if_pos hauto]
    have hno : activateTab
        { activateTab c (d : Int) with
          focusedIndex := d, hostFocus := some (.tab d) } (d : Int) =
        { activateTab c (d : Int) with
          focusedIndex := d, hostFocus := some (.tab d) } := by
      apply activateTab_noop
      right
      right
      constructor
      · show (d : Int) = ((activateTab c (d : Int)).activeIndex : Int)
        rw [ha]
      · show (activateTab c (d : Int)).initialized = true
        rw [hi]
        exact hinit
    rw [hno]
    exact ⟨ha, rfl⟩
  · rw [if_neg hauto]
    exact ⟨ha, rfl⟩

theorem navigateNext_manual (c : Controller) (hn : 0 < c.tabs.length) :
    navigateNext c false = { c with
      focusedIndex := (c.focusedIndex + 1) % c.tabs.length
      hostFocus := some (.tab ((c.focusedIndex + 1) % c.tabs.length)) } := by
  have h0 : ¬c.tabs.length = 0 := by omega
  simp [navigateNext, focusTab, h0]

theorem navigatePrevious_manual (c : Controller) (hn : 0 < c.tabs.length) :
    navigatePrevious c false = { c with
      focusedIndex := (c.focusedIndex + c.tabs.length - 1) % c.tabs.length
      hostFocus := some (.tab
        ((c.focusedIndex + c.tabs.length - 1) % c.tabs.length)) } := by
  have h0 : ¬c.tabs.length = 0 := by omega
  simp [navigatePrevious, focusTab, h0]

theorem navigateFirst_manual (c : Controller) (hn : 0 < c.tabs.length) :
    navigateFirst c false = { c with
      focusedIndex := 0
      hostFocus := some (.tab 0) } := by
  have h0 : ¬c.tabs.length = 0 := by omega
  simp [navigateFirst, focusTab, h0]

theorem navigateLast_manual (c : Controller) (hn : 0 < c.tabs.length) :
    navigateLast c false = { c with
      focusedIndex := c.tabs.length - 1
      hostFocus := some (.tab (c.tabs.length - 1)) } := by
  have h0 : ¬c.tabs.length = 0 := by omega
  simp [navigateLast, focusTab, h0]

theorem navigateNext_auto (c : Controller) (hwf : wf c = true)
    (hinit : c.initialized = true) (hn : 0 < c.tabs.length) :
    (navigateNext c true).activeIndex = (c.activeIndex + 1) % c.tabs.length ∧
    (navigateNext c true).focusedIndex =
      (c.activeIndex + 1) % c.tabs.length := by
  have h0 : ¬c.tabs.length = 0 := by omega
  unfold navigateNext
  rw [if_neg h0]
  simp only [if_pos rfl, if_true]
  exact hop_spec c true _ hwf (Nat.mod_lt _ hn) hinit

theorem navigatePrevious_auto (c : Controller) (hwf : wf c = true)
    (hinit : c.initialized = true) (hn : 0 < c.tabs.length) :
    (navigatePrevious c true).activeIndex =
      (c.activeIndex + c.tabs.length - 1) % c.tabs.length ∧
    (navigatePrevious c true).focusedIndex =
      (c.activeIndex + c.tabs.length - 1) % c.tabs.length := by
  have h0 : ¬c.tabs.length = 0 := by omega
  unfold navigatePrevious
  rw [if_neg h0]
  simp only [if_pos rfl, if_true]
  exact hop_spec c true _ hwf (Nat.mod_lt _ hn) hinit

theorem navigateFirst_auto (c : Controller) (hwf : wf c = true)
    (hinit : c.initialized = true) (hn : 0 < c.tabs.length) :
    (navigateFirst c true).activeIndex = 0 ∧
    (navigateFirst c true).focusedIndex = 0 := by
  have h0 : ¬c.tabs.length = 0 := by omega
  unfold navigateFirst
  rw [if_neg h0]
  simp only [if_pos rfl, if_true]
  exact hop_spec c true 0 hwf hn hinit

theorem navigateLast_auto (c : Controller) (hwf : wf c = true)
    (hinit : c.initialized = true) (hn : 0 < c.tabs.length) :
    (navigateLast c true).activeIndex = c.tabs.length - 1 ∧
    (navigateLast c true).focusedIndex = c.tabs.length - 1 := by
  have h0 : ¬c.tabs.length = 0 := by omega
  unfold navigateLast
  rw [if_neg h0]
  simp only [if_pos rfl, if_true]
  exact hop_spec c true _ hwf (by omega) hinit

/-! ## Default-tab resolution lemmas -/

theorem panelMatches_of_eq {p : Panel} (s : String)
    (hp : p.originalId = p.headingId) :
    panelMatches p s = (p.headingId == s) := by
  unfold panelMatches
  rw [hp]
  by_cases h : p.headingId = "" <;> simp [h]

theorem defaultTabByMatch_spec (c : Controller) (s : String)
    (hn : 0 < c.tabs.length)
    (hpl : c.panels.length = c.tabs.length)
    (hids : c.panels.all (fun p => p.originalId == p.headingId) = true) :
    defaultTabByMatch c s =
      activateTab c
        (((findIdxOpt (fun hid => hid == s)
            (c.panels.map Panel.headingId)).getD 0 : Nat) : Int) ∧
    (findIdxOpt (fun hid => hid == s)
      (c.panels.map Panel.headingId)).getD 0 < c.tabs.length := by
  have hmatch : findIdxOpt (fun p => panelMatches p s) c.panels
      = findIdxOpt (fun hid => hid == s) (c.panels.map Panel.headingId) := by
    rw [findIdxOpt_congr (q := fun p => p.headingId == s)
      (fun p hp => panelMatches_of_eq s
        (by simpa using List.all_eq_true.mp hids p hp))]
    exact findIdxOpt_comp (fun hid => hid == s) Panel.headingId c.panels
  unfold defaultTabByMatch
  rw [hmatch]
  cases hf : findIdxOpt (fun hid => hid == s)
      (c.panels.map Panel.headingId) with
  | none => exact ⟨by simp, by simpa using hn⟩
  | some i =>
    have hil := findIdxOpt_lt_length hf
    rw [List.length_map, hpl] at hil
    exact ⟨by simp, by simpa using hil⟩

theorem applyDefaultTab_eq (c : Controller) (directive : Option String)
    (force : Bool) (hn : 0 < c.tabs.length)
    (hpl : c.panels.length = c.tabs.length)
    (hgo : c.initialized = true ∨ force = true)
    (hids : c.panels.all (fun p => p.originalId == p.headingId) = true) :
    applyDefaultTab c directive force =
      activateTab c
        ((resolveDefaultTabSpec directive (c.panels.map Panel.headingId) :
          Nat) : Int) ∧
    resolveDefaultTabSpec directive (c.panels.map Panel.headingId)
      < c.tabs.length := by
  have h0 : ¬c.tabs.length = 0 := by omega
  have hguard : ¬(c.initialized = false ∧ force = false) := by
    rcases hgo with h | h <;> simp [h]
  have hlen : (c.panels.map Panel.headingId).length = c.tabs.length := by
    simp [hpl]
  cases directive with
  | none =>
    simp only [applyDefaultTab, if_neg h0, if_neg hguard]
    refine ⟨?_, by simpa [resolveDefaultTabSpec] using hn⟩
    simp [resolveDefaultTabSpec]
  | some s =>
    simp only [applyDefaultTab, if_neg h0, if_neg hguard]
    by_cases hs : s = ""
    · subst hs
      rw [if_pos rfl]
      refine ⟨?_, by simpa [resolveDefaultTabSpec] using hn⟩
      simp [resolveDefaultTabSpec]
    · rw [if_neg hs]
      obtain ⟨hm1, hm2⟩ := defaultTabByMatch_spec c s hn hpl hids
      cases hnum : jsIntOfString s with
      | some k =>
        by_cases hk : 0 ≤ k ∧ k < (c.tabs.length : Int)
        · have hres : resolveDefaultTabSpec (some s)
              (c.panels.map Panel.headingId) = k.toNat := by
            simp only [resolveDefaultTabSpec, hnum, if_neg hs]
            rw [if_pos (by omega)]
          rw [hres]
          constructor
          · show (if 0 ≤ k ∧ k < (c.tabs.length : Int) then activateTab c k
                else defaultTabByMatch c s) = activateTab c ((k.toNat : Nat) : Int)
            rw [if_pos hk]
            congr 1
            omega
          · omega
        · have hres : resolveDefaultTabSpec (some s)
              (c.panels.map Panel.headingId)
              = (findIdxOpt (fun hid => hid == s)
                  (c.panels.map Panel.headingId)).getD 0 := by
            simp only [resolveDefaultTabSpec, hnum, if_neg hs]
            rw [if_neg (by omega)]
          rw [hres]
          constructor
          · show (if 0 ≤ k ∧ k < (c.tabs.length : Int) then activateTab c k
                else defaultTabByMatch c s) = _
            rw [if_neg hk]
            exact hm1
          · exact hm2
      | none =>
        have hres : resolveDefaultTabSpec (some s)
            (c.panels.map Panel.headingId)
            = (findIdxOpt (fun hid => hid == s)
                (c.panels.map Panel.headingId)).getD 0 := by
          simp only [resolveDefaultTabSpec, hnum, if_neg hs]
        rw [hres]
        exact ⟨hm1, hm2⟩

/-! ## Build lemmas -/

theorem length_buildTabsFrom (base : String) (i m : Nat) :
    (buildTabsFrom base i m).length = m := by
  induction m generalizing i with
  | zero => rfl
  | succ n ih => simp [buildTabsFrom, ih]

theorem getD_buildTabsFrom (base : String) {m : Nat} (i : Nat) {j : Nat}
    (d : Tab) (hj : j < m) :
    (buildTabsFrom base i m).getD j d = mkTab base (i + j) := by
  induction m generalizing i j with
  | zero => omega
  | succ n ih =>
    cases j with
    | zero => simp [buildTabsFrom]
    | succ jj =>
      rw [show buildTabsFrom base i (n + 1)
          = mkTab base i :: buildTabsFrom base (i + 1) n from rfl]
      rw [List.getD_cons_succ, ih (i + 1) (by omega)]
      congr 1
      omega

theorem length_buildPanelsFrom (base : String) (sh : Bool) (i : Nat)
    (ss : List Section) :
    (buildPanelsFrom base sh i ss).length = ss.length := by
  induction ss generalizing i with
  | nil => rfl
  | cons s rest ih => simp [buildPanelsFrom, ih]

theorem getD_buildPanelsFrom (base : String) (sh : Bool) (i : Nat)
    {ss : List Section} {j : Nat} (d : Panel) (hj : j < ss.length) :
    (buildPanelsFrom base sh i ss).getD j d
      = mkPanel base sh (i + j) (ss.getD j default) := by
  induction ss generalizing i j with
  | nil => simp at hj
  | cons s rest ih =>
    cases j with
    | zero => simp [buildPanelsFrom]
    | succ jj =>
      rw [show buildPanelsFrom base sh i (s :: rest)
          = mkPanel base sh i s :: buildPanelsFrom base sh (i + 1) rest
          from rfl]
      rw [List.getD_cons_succ, List.getD_cons_succ,
        ih (i + 1) (by simpa using hj)]
      congr 1
      omega

theorem map_headingId_buildPanelsFrom (base : String) (sh : Bool) (i : Nat)
    (ss : List Section) :
    (buildPanelsFrom base sh i ss).map Panel.headingId
      = ss.map (fun s => s.heading.id) := by
  induction ss generalizing i with
  | nil => rfl
  | cons s rest ih => simp [buildPanelsFrom, mkPanel, ih]

theorem all_originalId_buildPanelsFrom (base : String) (sh : Bool) (i : Nat)
    (ss : List Section) :
    (buildPanelsFrom base sh i ss).all
      (fun p => p.originalId == p.headingId) = true := by
  induction ss generalizing i with
  | nil => rfl
  | cons s rest ih => simp [buildPanelsFrom, mkPanel, ih]

theorem all_beq_of_maps {l1 l2 : List α} (f g : α → String)
    (hf : l1.map f = l2.map f) (hg : l1.map g = l2.map g) :
    l1.all (fun a => f a == g a) = l2.all (fun a => f a == g a) := by
  induction l1 generalizing l2 with
  | nil => cases l2 with
    | nil => rfl
    | cons b bs => simp at hf
  | cons a as ih =>
    cases l2 with
    | nil => simp at hf
    | cons b bs =>
      simp only [List.map_cons, List.cons.injEq] at hf hg
      simp [List.all_cons, hf.1, hg.1, ih hf.2 hg.2]

theorem wf_built (base : String) (sh : Bool) (ss : List Section)
    (c : Controller) (htabs : c.tabs = buildTabsFrom base 0 ss.length)
    (hpanels : c.panels = buildPanelsFrom base sh 0 ss)
    (hact : c.activeIndex = 0) (hn : 0 < ss.length) :
    wf c = true := by
  rw [wf_iff]
  refine ⟨?_, ?_, ?_, ?_⟩
  · rw [htabs, hpanels, length_buildTabsFrom, length_buildPanelsFrom]
  · right
    rw [htabs, length_buildTabsFrom, hact]
    exact hn
  · intro j hj
    rw [htabs, length_buildTabsFrom] at hj
    rw [htabs, hact, getD_buildTabsFrom base 0 _ hj]
    simp only [mkTab, Nat.zero_add]
    constructor <;> (by_cases hj0 : j = 0 <;> simp [hj0])
  · intro j hj
    rw [hpanels, length_buildPanelsFrom] at hj
    rw [hpanels, hact, getD_buildPanelsFrom base sh 0 _ hj]
    simp only [mkPanel, Nat.zero_add]
    by_cases hj0 : j = 0 <;> simp [hj0]

/-- The controller state assembled by `#initializeTabs` just before default
tab resolution, starting from a freshly reset instance. -/
def builtState (attrs : Attrs) (base : String) (ss : List Section) :
    Controller :=
  { resetInternalState initController with
    slotVisible := false
    baseId := base
    hasTablist := true
    tablistAfterPos := attrs.tablistAfter
    tabs := buildTabsFrom base 0 ss.length
    panels := buildPanelsFrom base attrs.showHeaders 0 ss
    hasCustomTitle := ss.map fun s => hasCustomTitleOf s.heading }

theorem build_spec (attrs : Attrs) (base : String) (nodes : List Node)
    (hs : 0 < (buildSections nodes).length) :
    (initializeTabs initController attrs base nodes).tabs.length
      = (buildSections nodes).length ∧
    (initializeTabs initController attrs base nodes).panels.length
      = (buildSections nodes).length ∧
    wf (initializeTabs initController attrs base nodes) = true ∧
    (initializeTabs initController attrs base nodes).initialized = true ∧
    (initializeTabs initController attrs base nodes).baseId = base ∧
    (initializeTabs initController attrs base nodes).activeIndex
      = resolveDefaultTabSpec attrs.defaultTab
          ((buildSections nodes).map fun s => s.heading.id) ∧
    (initializeTabs initController attrs base nodes).focusedIndex
      = resolveDefaultTabSpec attrs.defaultTab
          ((buildSections nodes).map fun s => s.heading.id) ∧
    (initializeTabs initController attrs base nodes).events
      = [{ tabId := mkTabId base (resolveDefaultTabSpec attrs.defaultTab
              ((buildSections nodes).map fun s => s.heading.id))
           tabpanelId := mkPanelId base (resolveDefaultTabSpec
              attrs.defaultTab
              ((buildSections nodes).map fun s => s.heading.id))
           tabIndex := resolveDefaultTabSpec attrs.defaultTab
              ((buildSections nodes).map fun s => s.heading.id) }] ∧
    (initializeTabs initController attrs base nodes).slotVisible = false ∧
    (initializeTabs initController attrs base nodes).hasTablist = true ∧
    (initializeTabs initController attrs base nodes).panels.map
      Panel.headingId = (buildSections nodes).map (fun s => s.heading.id) ∧
    (initializeTabs initController attrs base nodes).panels.all
      (fun p => p.originalId == p.headingId) = true ∧
    (initializeTabs initController attrs base nodes).scrolls = 0 := by
  cases htag : findHeadingTag nodes with
  | none =>
    have hempty : buildSections nodes = [] := by simp [buildSections, htag]
    rw [hempty] at hs
    simp at hs
  | some tag =>
    have hbs : buildSections nodes = parseContentIntoSections nodes tag := by
      simp [buildSections, htag]
    rw [hbs] at hs ⊢
    have hns : ¬(parseContentIntoSections nodes tag).length = 0 := by omega
    have hrw : initializeTabs initController attrs base nodes
        = { applyDefaultTab
              (builtState attrs base (parseContentIntoSections nodes tag))
              attrs.defaultTab true with
            initialized := true
            focusedIndex := (applyDefaultTab
              (builtState attrs base (parseContentIntoSections nodes tag))
              attrs.defaultTab true).activeIndex } := by
      simp only [initializeTabs, htag]
      rw [if_neg hns]
      rfl
    have hn1 : 0 < (builtState attrs base
        (parseContentIntoSections nodes tag)).tabs.length := by
      show 0 < (buildTabsFrom base 0
        (parseContentIntoSections nodes tag).length).length
      rw [length_buildTabsFrom]
      exact hs
    have hpl1 : (builtState attrs base
        (parseContentIntoSections nodes tag)).panels.length
        = (builtState attrs base
            (parseContentIntoSections nodes tag)).tabs.length := by
      show (buildPanelsFrom base attrs.showHeaders 0
          (parseContentIntoSections nodes tag)).length
        = (buildTabsFrom base 0
            (parseContentIntoSections nodes tag).length).length
      rw [length_buildPanelsFrom, length_buildTabsFrom]
    have hids1 : (builtState attrs base
        (parseContentIntoSections nodes tag)).panels.all
        (fun p => p.originalId == p.headingId) = true :=
      all_originalId_buildPanelsFrom base attrs.showHeaders 0
        (parseContentIntoSections nodes tag)
    have hmap1 : (builtState attrs base
        (parseContentIntoSections nodes tag)).panels.map Panel.headingId
        = (parseContentIntoSections nodes tag).map
            (fun s => s.heading.id) :=
      map_headingId_buildPanelsFrom base attrs.showHeaders 0
        (parseContentIntoSections nodes tag)
    obtain ⟨happ, hklt⟩ := applyDefaultTab_eq
      (builtState attrs base (parseContentIntoSections nodes tag))
      attrs.defaultTab true hn1 hpl1 (Or.inr rfl) hids1
    rw [hmap1] at happ hklt
    have hwf1 : wf (builtState attrs base
        (parseContentIntoSections nodes tag)) = true :=
      wf_built base attrs.showHeaders (parseContentIntoSections nodes tag)
        _ rfl rfl rfl hs
    have hklt1 : resolveDefaultTabSpec attrs.defaultTab
        ((parseContentIntoSections nodes tag).map fun s => s.heading.id)
        < (builtState attrs base
            (parseContentIntoSections nodes tag)).tabs.length := hklt
    have hgo1 : ¬(resolveDefaultTabSpec attrs.defaultTab
        ((parseContentIntoSections nodes tag).map fun s => s.heading.id)
          = (builtState attrs base
              (parseContentIntoSections nodes tag)).activeIndex ∧
        (builtState attrs base
          (parseContentIntoSections nodes tag)).initialized = true) := by
      rintro ⟨-, hbad⟩
      exact absurd hbad (by simp [builtState, resetInternalState])
    obtain ⟨ha1, ha2, ha3, ha4, ha5, ha6, ha7, ha8, ha9, ha10, ha11, ha12,
      ha13, ha14, ha15, ha16, ha17, ha18⟩ := activateTab_spec
        (builtState attrs base (parseContentIntoSections nodes tag))
        (resolveDefaultTabSpec attrs.defaultTab
          ((parseContentIntoSections nodes tag).map fun s => s.heading.id))
        hwf1 hklt1 hgo1
    have hklen : resolveDefaultTabSpec attrs.defaultTab
        ((parseContentIntoSections nodes tag).map fun s => s.heading.id)
        < (parseContentIntoSections nodes tag).length := by
      rw [show (builtState attrs base
          (parseContentIntoSections nodes tag)).tabs.length
          = (buildTabsFrom base 0
              (parseContentIntoSections nodes tag).length).length
          from rfl, length_buildTabsFrom] at hklt1
      exact hklt1
    rw [hrw, happ]
    refine ⟨?_, ?_, ?_, rfl, ?_, ?_, ?_, ?_, ?_, ?_, ?_, ?_, ?_⟩
    · show (activateTab _ _).tabs.length = _
      rw [ha3]
      show (buildTabsFrom base 0
        (parseContentIntoSections nodes tag).length).length = _
      rw [length_buildTabsFrom]
    · show (activateTab _ _).panels.length = _
      rw [ha4]
      show (buildPanelsFrom base attrs.showHeaders 0
        (parseContentIntoSections nodes tag)).length = _
      rw [length_buildPanelsFrom]
    · show wf (activateTab _ _) = true
      exact ha5
    · show (activateTab _ _).baseId = base
      rw [ha7]
      rfl
    · show (activateTab _ _).activeIndex = _
      exact ha1
    · show (activateTab _ _).activeIndex = _
      exact ha1
    · show (activateTab _ _).events = _
      rw [ha13]
      rw [show (builtState attrs base
          (parseContentIntoSections nodes tag)).events = [] from rfl]
      rw [show (builtState attrs base
          (parseContentIntoSections nodes tag)).tabs
          = buildTabsFrom base 0 (parseContentIntoSections nodes tag).length
          from rfl]
      rw [show (builtState attrs base
          (parseContentIntoSections nodes tag)).panels
          = buildPanelsFrom base attrs.showHeaders 0
              (parseContentIntoSections nodes tag) from rfl]
      rw [getD_buildTabsFrom base 0 _ hklen,
        getD_buildPanelsFrom base attrs.showHeaders 0 _ hklen]
      simp [mkTab, mkPanel]
    · show (activateTab _ _).slotVisible = false
      rw [ha9]
      rfl
    · show (activateTab _ _).hasTablist = true
      rw [ha8]
      rfl
    · show (activateTab _ _).panels.map Panel.headingId = _
      rw [ha14]
      exact hmap1
    · show (activateTab _ _).panels.all
        (fun p => p.originalId == p.headingId) = true
      rw [all_beq_of_maps Panel.originalId Panel.headingId ha15 ha14]
      exact hids1
    · show (activateTab _ _).scrolls = 0
      rw [ha10]
      rfl

/-! ## Concrete fixture used by the witnesses -/

/-- A three-section input: `h2#intro, p, h2#details, p, h2#extra, p` (the
paragraphs contain a focusable element). -/
def wHeading (hid : String) : Node :=
  Node.element { tag := "H2", id := hid, shortName := none, focusable := false }

def wPara : Node :=
  Node.element { tag := "P", id := "", shortName := none, focusable := true }

def wNodes : List Node :=
  [wHeading "intro", wPara, wHeading "details", wPara, wHeading "extra", wPara]

/-- The controller after a Build over `wNodes` with default attributes. -/
def wController : Controller := initializeTabs initController {} "w" wNodes

theorem build_empty (attrs : Attrs) (base : String) (nodes : List Node)
    (hs : (buildSections nodes).length = 0) :
    initializeTabs initController attrs base nodes
      = { resetInternalState initController with slotVisible := true } := by
  cases htag : findHeadingTag nodes with
  | none => simp only [initializeTabs, htag]
  | some tag =>
    have hps : (parseContentIntoSections nodes tag).length = 0 := by
      have hbs : buildSections nodes = parseContentIntoSections nodes tag := by
        simp [buildSections, htag]
      rw [← hbs]
      exact hs
    simp only [initializeTabs, htag]
    rw [if_pos hps]

/-! ## The claims -/

/-- C1: Build over any input yields as many tabs as panels as parsed
sections; when at least one section is parsed, Build completes initialized
with exactly one active tab/panel pair (the pair at the active index); when
zero sections are parsed no transformation occurs — no tabs, no panels, the
slotted content stays visible, and the controller stays uninitialized.
Before initialization (the freshly constructed controller) no pair is
active. -/
theorem claim_C1 : ∀ (attrs : Attrs) (base : String) (nodes : List Node),
    (initializeTabs initController attrs base nodes).tabs.length
      = (buildSections nodes).length ∧
    (initializeTabs initController attrs base nodes).panels.length
      = (buildSections nodes).length ∧
    (if 0 < (buildSections nodes).length then
      activePairs (initializeTabs initController attrs base nodes)
          = [(initializeTabs initController attrs base nodes).activeIndex] ∧
      (initializeTabs initController attrs base nodes).initialized = true
    else
      (initializeTabs initController attrs base nodes).tabs = [] ∧
      (initializeTabs initController attrs base nodes).panels = [] ∧
      (initializeTabs initController attrs base nodes).slotVisible = true ∧
      (initializeTabs initController attrs base nodes).initialized
        = false) ∧
    activePairs initController = [] ∧
    initController.initialized = false := by
  intro attrs base nodes
  by_cases hs : 0 < (buildSections nodes).length
  · obtain ⟨h1, h2, hwf, hinit, _, _, _, _, _, _, _, _, _⟩ :=
      build_spec attrs base nodes hs
    refine ⟨h1, h2, ?_, rfl, rfl⟩
    rw [if_pos hs]
    refine ⟨activePairs_of_wf hwf ?_, hinit⟩
    rw [h1]
    exact hs
  · have h0 : (buildSections nodes).length = 0 := by omega
    rw [build_empty attrs base nodes h0]
    rw [if_neg hs]
    refine ⟨?_, ?_, ⟨rfl, rfl, rfl, rfl⟩, rfl, rfl⟩
    · rw [h0]
      rfl
    · rw [h0]
      rfl

/-- C2: For an in-range index that is not already active (or while the
controller is uninitialized), Activate makes exactly the pair at that index
active (selection, tab order and visibility follow the new active index
everywhere, so the previously active pair is deactivated), sets both the
active and the focused index to it, and appends exactly one change event
carrying that tab's id, that panel's id and the index. -/
theorem claim_C2 (c : Controller) (i : Nat) (hwf : wf c = true)
    (hi : i < c.tabs.length)
    (hact : i ≠ c.activeIndex ∨ c.initialized = false) :
    (activateTab c (i : Int)).activeIndex = i ∧
    (activateTab c (i : Int)).focusedIndex = i ∧
    wf (activateTab c (i : Int)) = true ∧
    activePairs (activateTab c (i : Int)) = [i] ∧
    (activateTab c (i : Int)).events = c.events ++
      [{ tabId := (c.tabs.getD i default).id,
         tabpanelId := (c.panels.getD i default).id,
         tabIndex := i }] := by
  have hgo : ¬(i = c.activeIndex ∧ c.initialized = true) := by
    rcases hact with h | h
    · rintro ⟨h1, -⟩
      exact h h1
    · rintro ⟨-, h2⟩
      rw [h] at h2
      cases h2
  obtain ⟨h1, h2, h3, h4, h5, _, _, _, _, _, _, _, h13, _, _, _, _, _⟩ :=
    activateTab_spec c i hwf hi hgo
  refine ⟨h1, h2, h5, ?_, h13⟩
  conv_rhs => rw [← h1]
  refine activePairs_of_wf h5 ?_
  rw [h3]
  omega

theorem claim_C2_witness :
    (activateTab wController ((1 : Nat) : Int)).activeIndex = 1 ∧
    (activateTab wController ((1 : Nat) : Int)).focusedIndex = 1 ∧
    wf (activateTab wController ((1 : Nat) : Int)) = true ∧
    activePairs (activateTab wController ((1 : Nat) : Int)) = [1] ∧
    (activateTab wController ((1 : Nat) : Int)).events = wController.events
      ++ [{ tabId := (wController.tabs.getD 1 default).id,
            tabpanelId := (wController.panels.getD 1 default).id,
            tabIndex := 1 }] :=
  claim_C2 wController 1 (by decide) (by decide) (by decide)

/-- C3: Activate with an out-of-range index, or with the index that is
already active while initialized, is a complete no-op — the controller
state (and hence the event log) is unchanged — and the `activeIndex` setter
obeys the same guards. -/
theorem claim_C3 (c : Controller) (idx : Int)
    (h : idx < 0 ∨ (c.tabs.length : Int) ≤ idx ∨
      (c.initialized = true ∧ idx = (c.activeIndex : Int))) :
    activateTab c idx = c ∧ setActiveIndex c idx = c := by
  have h1 : activateTab c idx = c := by
    apply activateTab_noop
    rcases h with h | h | ⟨ha, hb⟩
    · exact Or.inl h
    · exact Or.inr (Or.inl h)
    · exact Or.inr (Or.inr ⟨hb, ha⟩)
  refine ⟨h1, ?_⟩
  unfold setActiveIndex
  by_cases hin : 0 ≤ idx ∧ idx < (c.tabs.length : Int)
  · rw [if_pos hin, h1]
  · rw [if_neg hin]

theorem claim_C3_witness :
    (activateTab wController (0 : Int) = wController ∧
      setActiveIndex wController (0 : Int) = wController) ∧
    (activateTab wController (5 : Int) = wController ∧
      setActiveIndex wController (5 : Int) = wController) ∧
    (activateTab wController (-1 : Int) = wController ∧
      setActiveIndex wController (-1 : Int) = wController) :=
  ⟨claim_C3 wController 0 (by decide), claim_C3 wController 5 (by decide),
    claim_C3 wController (-1) (by decide)⟩

/-- C4: The section parser equals its specification: the section tag is the
heading tag of the first heading-matching element in document order; each
section-tag heading opens a section whose content is every element node and
every non-empty text node (wrapped as an inline span) up to the next
section-tag heading, deeper or shallower headings counting as ordinary
content; nodes before the first section-tag heading are discarded; the last
section is flushed; with no heading at all the parse is empty. -/
theorem claim_C4 : ∀ (nodes : List Node) (t : String),
    parseContentIntoSections nodes t = sectionsSpec t nodes ∧
    findHeadingTag nodes = firstHeadingTagSpec nodes ∧
    buildSections nodes = (match firstHeadingTagSpec nodes with
      | none => []
      | some tg => sectionsSpec tg nodes) := by
  intro nodes t
  refine ⟨parseAux_none t nodes, findHeadingTag_eq_spec nodes, ?_⟩
  rw [← findHeadingTag_eq_spec nodes]
  cases h : findHeadingTag nodes with
  | none => simp [buildSections, h]
  | some tg =>
    simp only [buildSections, h]
    exact parseAux_none tg nodes

/-- C5: Default-tab resolution — at Build, and re-applied when the
default-tab attribute changes after initialization — activates index 0 for
an absent (or empty) directive, the directive's index for an in-range
non-negative integer directive, and otherwise the first panel whose
original-heading identifier matches the directive, falling back to index
0. -/
theorem claim_C5 (attrs : Attrs) (base : String) (nodes : List Node)
    (attrs2 : Attrs) (oldV newV : Option String)
    (hs : 0 < (buildSections nodes).length) (hch : oldV ≠ newV) :
    (initializeTabs initController attrs base nodes).activeIndex
      = resolveDefaultTabSpec attrs.defaultTab
          ((buildSections nodes).map fun s => s.heading.id) ∧
    (attributeChangedCallback
        (initializeTabs initController attrs base nodes) attrs2
        AttrName.defaultTab oldV newV).activeIndex
      = resolveDefaultTabSpec attrs2.defaultTab
          ((buildSections nodes).map fun s => s.heading.id) := by
  obtain ⟨h1, h2, hwf, hinit, _, hact, _, _, _, _, hmap, hall, _⟩ :=
    build_spec attrs base nodes hs
  refine ⟨hact, ?_⟩
  have hcb : attributeChangedCallback
      (initializeTabs initController attrs base nodes) attrs2
      AttrName.defaultTab oldV newV
      = applyDefaultTab (initializeTabs initController attrs base nodes)
          attrs2.defaultTab false := by
    unfold attributeChangedCallback
    rw [if_neg (by simp [hch, hinit])]
  rw [hcb]
  have hn1 : 0 < (initializeTabs initController attrs base nodes).tabs.length := by
    rw [h1]
    exact hs
  have hpl1 : (initializeTabs initController attrs base nodes).panels.length
      = (initializeTabs initController attrs base nodes).tabs.length := by
    rw [h1, h2]
  obtain ⟨happ, hklt⟩ := applyDefaultTab_eq
    (initializeTabs initController attrs base nodes) attrs2.defaultTab false
    hn1 hpl1 (Or.inl hinit) hall
  rw [hmap] at happ hklt
  rw [happ]
  exact (activateTab_active (initializeTabs initController attrs base nodes)
    _ hwf hklt).1

theorem claim_C5_witness :
    (initializeTabs initController { defaultTab := some "2" } "w"
        wNodes).activeIndex
      = resolveDefaultTabSpec (some "2")
          ((buildSections wNodes).map fun s => s.heading.id) ∧
    (attributeChangedCallback
        (initializeTabs initController { defaultTab := some "2" } "w"
          wNodes)
        { defaultTab := some "unmatched" } AttrName.defaultTab
        (some "2") (some "unmatched")).activeIndex
      = resolveDefaultTabSpec (some "unmatched")
          ((buildSections wNodes).map fun s => s.heading.id) :=
  claim_C5 { defaultTab := some "2" } "w" wNodes
    { defaultTab := some "unmatched" } (some "2") (some "unmatched")
    (by decide) (by decide)

/-- The keyboard-interaction contract of claim C6, for one controller
state: in manual configuration arrow keys and Home/End move only the focus
index (cyclically) and fire no change event, Enter/Space activates the
focused index and then moves host focus into the active panel's first
focusable descendant if any; in auto-activate configuration every focus
movement activates its destination, keeping focus and active index
equal. -/
def KeyboardClaim (c : Controller) : Prop :=
  ((handleKeydown c false Key.arrowRight).focusedIndex
      = (c.focusedIndex + 1) % c.tabs.length ∧
    (handleKeydown c false Key.arrowRight).activeIndex = c.activeIndex ∧
    (handleKeydown c false Key.arrowRight).events = c.events) ∧
  ((handleKeydown c false Key.arrowDown).focusedIndex
      = (c.focusedIndex + 1) % c.tabs.length ∧
    (handleKeydown c false Key.arrowDown).activeIndex = c.activeIndex ∧
    (handleKeydown c false Key.arrowDown).events = c.events) ∧
  ((handleKeydown c false Key.arrowLeft).focusedIndex
      = (c.focusedIndex + c.tabs.length - 1) % c.tabs.length ∧
    (handleKeydown c false Key.arrowLeft).activeIndex = c.activeIndex ∧
    (handleKeydown c false Key.arrowLeft).events = c.events) ∧
  ((handleKeydown c false Key.arrowUp).focusedIndex
      = (c.focusedIndex + c.tabs.length - 1) % c.tabs.length ∧
    (handleKeydown c false Key.arrowUp).activeIndex = c.activeIndex ∧
    (handleKeydown c false Key.arrowUp).events = c.events) ∧
  ((handleKeydown c false Key.home).focusedIndex = 0 ∧
    (handleKeydown c false Key.home).activeIndex = c.activeIndex ∧
    (handleKeydown c false Key.home).events = c.events) ∧
  ((handleKeydown c false Key.endKey).focusedIndex = c.tabs.length - 1 ∧
    (handleKeydown c false Key.endKey).activeIndex = c.activeIndex ∧
    (handleKeydown c false Key.endKey).events = c.events) ∧
  ((handleKeydown c false Key.enter).activeIndex = c.focusedIndex ∧
    (handleKeydown c false Key.enter).hostFocus
      = (if (c.panels.getD c.focusedIndex default).hasFocusable
         then some (.panelContent c.focusedIndex) else c.hostFocus)) ∧
  ((handleKeydown c false Key.space).activeIndex = c.focusedIndex ∧
    (handleKeydown c false Key.space).hostFocus
      = (if (c.panels.getD c.focusedIndex default).hasFocusable
         then some (.panelContent c.focusedIndex) else c.hostFocus)) ∧
  ((handleKeydown c true Key.arrowRight).activeIndex
      = (c.activeIndex + 1) % c.tabs.length ∧
    (handleKeydown c true Key.arrowRight).focusedIndex
      = (handleKeydown c true Key.arrowRight).activeIndex) ∧
  ((handleKeydown c true Key.arrowDown).activeIndex
      = (c.activeIndex + 1) % c.tabs.length ∧
    (handleKeydown c true Key.arrowDown).focusedIndex
      = (handleKeydown c true Key.arrowDown).activeIndex) ∧
  ((handleKeydown c true Key.arrowLeft).activeIndex
      = (c.activeIndex + c.tabs.length - 1) % c.tabs.length ∧
    (handleKeydown c true Key.arrowLeft).focusedIndex
      = (handleKeydown c true Key.arrowLeft).activeIndex) ∧
  ((handleKeydown c true Key.arrowUp).activeIndex
      = (c.activeIndex + c.tabs.length - 1) % c.tabs.length ∧
    (handleKeydown c true Key.arrowUp).focusedIndex
      = (handleKeydown c true Key.arrowUp).activeIndex) ∧
  ((handleKeydown c true Key.home).activeIndex = 0 ∧
    (handleKeydown c true Key.home).focusedIndex
      = (handleKeydown c true Key.home).activeIndex) ∧
  ((handleKeydown c true Key.endKey).activeIndex = c.tabs.length - 1 ∧
    (handleKeydown c true Key.endKey).focusedIndex
      = (handleKeydown c true Key.endKey).activeIndex)

/-- C6: On an initialized controller whose focus index is in range, the
keyboard contract `KeyboardClaim` holds: manual mode decouples focus
movement from activation (arrows and Home/End move only the focus index,
Enter/Space activates the focused pair and forwards host focus into the
active panel), while auto-activate mode activates on every focus movement
so that focus and active index coincide. -/
theorem claim_C6 (c : Controller) (hwf : wf c = true)
    (hinit : c.initialized = true) (hf : c.focusedIndex < c.tabs.length) :
    KeyboardClaim c := by
  have hn : 0 < c.tabs.length := by omega
  obtain ⟨ha, hwfa, hia, hlta, hlpa, _, _, hfoc, _, _, hhf⟩ :=
    activateTab_active c c.focusedIndex hwf hf
  have henter : handleKeydown c false Key.enter
      = (if ((activateTab c (c.focusedIndex : Int)).panels.getD
            (activateTab c (c.focusedIndex : Int)).activeIndex
            default).hasFocusable
         then { activateTab c (c.focusedIndex : Int) with
                hostFocus := some (.panelContent
                  (activateTab c (c.focusedIndex : Int)).activeIndex) }
         else activateTab c (c.focusedIndex : Int)) := rfl
  have hcond : ((activateTab c (c.focusedIndex : Int)).panels.getD
      (activateTab c (c.focusedIndex : Int)).activeIndex
        default).hasFocusable
      = (c.panels.getD c.focusedIndex default).hasFocusable := by
    rw [ha, hfoc]
  have hentergoal : (handleKeydown c false Key.enter).activeIndex
        = c.focusedIndex ∧
      (handleKeydown c false Key.enter).hostFocus
        = (if (c.panels.getD c.focusedIndex default).hasFocusable
           then some (.panelContent c.focusedIndex) else c.hostFocus) := by
    rw [henter]
    by_cases hb : (c.panels.getD c.focusedIndex default).hasFocusable
    · rw [if_pos (by rw [hcond]; exact hb), if_pos hb]
      constructor
      · show (activateTab c (c.focusedIndex : Int)).activeIndex
            = c.focusedIndex
        exact ha
      · show some (HostFocus.panelContent
            (activateTab c (c.focusedIndex : Int)).activeIndex)
            = some (HostFocus.panelContent c.focusedIndex)
        rw [ha]
    · rw [if_neg (by rw [hcond]; exact hb), if_neg hb]
      exact ⟨ha, hhf⟩
  refine ⟨?_, ?_, ?_, ?_, ?_, ?_, hentergoal, hentergoal, ?_, ?_, ?_, ?_,
    ?_, ?_⟩
  · rw [show handleKeydown c false Key.arrowRight = navigateNext c false
      from rfl, navigateNext_manual c hn]
    exact ⟨rfl, rfl, rfl⟩
  · rw [show handleKeydown c false Key.arrowDown = navigateNext c false
      from rfl, navigateNext_manual c hn]
    exact ⟨rfl, rfl, rfl⟩
  · rw [show handleKeydown c false Key.arrowLeft = navigatePrevious c false
      from rfl, navigatePrevious_manual c hn]
    exact ⟨rfl, rfl, rfl⟩
  · rw [show handleKeydown c false Key.arrowUp = navigatePrevious c false
      from rfl, navigatePrevious_manual c hn]
    exact ⟨rfl, rfl, rfl⟩
  · rw [show handleKeydown c false Key.home = navigateFirst c false
      from rfl, navigateFirst_manual c hn]
    exact ⟨rfl, rfl, rfl⟩
  · rw [show handleKeydown c false Key.endKey = navigateLast c false
      from rfl, navigateLast_manual c hn]
    exact ⟨rfl, rfl, rfl⟩
  · rw [show handleKeydown c true Key.arrowRight = navigateNext c true
      from rfl]
    obtain ⟨x, y⟩ := navigateNext_auto c hwf hinit hn
    exact ⟨x, y.trans x.symm⟩
  · rw [show handleKeydown c true Key.arrowDown = navigateNext c true
      from rfl]
    obtain ⟨x, y⟩ := navigateNext_auto c hwf hinit hn
    exact ⟨x, y.trans x.symm⟩
  · rw [show handleKeydown c true Key.arrowLeft = navigatePrevious c true
      from rfl]
    obtain ⟨x, y⟩ := navigatePrevious_auto c hwf hinit hn
    exact ⟨x, y.trans x.symm⟩
  · rw [show handleKeydown c true Key.arrowUp = navigatePrevious c true
      from rfl]
    obtain ⟨x, y⟩ := navigatePrevious_auto c hwf hinit hn
    exact ⟨x, y.trans x.symm⟩
  · rw [show handleKeydown c true Key.home = navigateFirst c true
      from rfl]
    obtain ⟨x, y⟩ := navigateFirst_auto c hwf hinit hn
    exact ⟨x, y.trans x.symm⟩
  · rw [show handleKeydown c true Key.endKey = navigateLast c true
      from rfl]
    obtain ⟨x, y⟩ := navigateLast_auto c hwf hinit hn
    exact ⟨x, y.trans x.symm⟩

theorem claim_C6_witness : KeyboardClaim wController :=
  claim_C6 wController (by decide) (by decide) (by decide)

/-- C7: On an initialized controller the host navigation operations are
cyclic over the `n` tabs: `next` activates `(active + 1) % n` (so index 0
from the last tab), `previous` activates `(active + n - 1) % n` (so the
last tab from index 0), `first` activates 0 and `last` activates
`n - 1`. -/
theorem claim_C7 (c : Controller) (auto : Bool) (hwf : wf c = true)
    (hinit : c.initialized = true) (hn : 0 < c.tabs.length) :
    (next c auto).activeIndex = (c.activeIndex + 1) % c.tabs.length ∧
    (previous c auto).activeIndex
      = (c.activeIndex + c.tabs.length - 1) % c.tabs.length ∧
    (first c auto).activeIndex = 0 ∧
    (last c auto).activeIndex = c.tabs.length - 1 ∧
    (c.activeIndex = c.tabs.length - 1 → (next c auto).activeIndex = 0) ∧
    (c.activeIndex = 0 →
      (previous c auto).activeIndex = c.tabs.length - 1) := by
  have h0 : ¬c.tabs.length = 0 := by omega
  have hnext : (next c auto).activeIndex
      = (c.activeIndex + 1) % c.tabs.length := by
    have hr : next c auto = focusTab (activateTab c
        (((c.activeIndex + 1) % c.tabs.length : Nat) : Int)) auto
        ((c.activeIndex + 1) % c.tabs.length) := by
      simp only [next]
      rw [if_neg h0]
    rw [hr]
    exact (hop_spec c auto _ hwf (Nat.mod_lt _ hn) hinit).1
  have hprev : (previous c auto).activeIndex
      = (c.activeIndex + c.tabs.length - 1) % c.tabs.length := by
    have hr : previous c auto = focusTab (activateTab c
        (((c.activeIndex + c.tabs.length - 1) % c.tabs.length : Nat) :
          Int)) auto
        ((c.activeIndex + c.tabs.length - 1) % c.tabs.length) := by
      simp only [previous]
      rw [if_neg h0]
    rw [hr]
    exact (hop_spec c auto _ hwf (Nat.mod_lt _ hn) hinit).1
  refine ⟨hnext, hprev, ?_, ?_, ?_, ?_⟩
  · have hr : first c auto
        = focusTab (activateTab c ((0 : Nat) : Int)) auto 0 := by
      simp only [first]
      rw [if_neg h0]
      rfl
    rw [hr]
    exact (hop_spec c auto 0 hwf hn hinit).1
  · have hr : last c auto = focusTab (activateTab c
        ((c.tabs.length - 1 : Nat) : Int)) auto (c.tabs.length - 1) := by
      simp only [last]
      rw [if_neg h0]
    rw [hr]
    exact (hop_spec c auto _ hwf (by omega) hinit).1
  · intro hlast
    rw [hnext, hlast]
    have hsum : c.tabs.length - 1 + 1 = c.tabs.length := by omega
    rw [hsum, Nat.mod_self]
  · intro hzero
    rw [hprev, hzero]
    have hsum : 0 + c.tabs.length - 1 = c.tabs.length - 1 := by omega
    rw [hsum]
    exact Nat.mod_eq_of_lt (by omega)

theorem claim_C7_witness :
    (next wController false).activeIndex
      = (wController.activeIndex + 1) % wController.tabs.length ∧
    (previous wController false).activeIndex
      = (wController.activeIndex + wController.tabs.length - 1)
          % wController.tabs.length ∧
    (first wController false).activeIndex = 0 ∧
    (last wController false).activeIndex = wController.tabs.length - 1 ∧
    (wController.activeIndex = wController.tabs.length - 1 →
      (next wController false).activeIndex = 0) ∧
    (wController.activeIndex = 0 →
      (previous wController false).activeIndex
        = wController.tabs.length - 1) :=
  claim_C7 wController false (by decide) (by decide) (by decide)

/-- The hash-navigation contract of claim C8 for one controller state and
one `window.location.hash` value: a no-op when uninitialized, when the hash
is empty, or when no panel's heading matches the fragment; otherwise one
Activate of the first matching panel's index followed by one scroll of the
tab strip into view. -/
def HashClaim (c : Controller) (hash : String) : Prop :=
  (c.initialized = false ∨ hash = "" → handleHashChange c hash = c) ∧
  (hashTargetIndex c (dropFirst hash) = none →
    handleHashChange c hash = c) ∧
  (c.initialized = true → hash ≠ "" →
    (hashTargetIndex c (dropFirst hash)).isSome = true →
    handleHashChange c hash =
      { activateTab c
          (((hashTargetIndex c (dropFirst hash)).getD 0 : Nat) : Int) with
        scrolls := (activateTab c
          (((hashTargetIndex c (dropFirst hash)).getD 0 : Nat) :
            Int)).scrolls + 1 } ∧
    (handleHashChange c hash).activeIndex
      = (hashTargetIndex c (dropFirst hash)).getD 0 ∧
    (handleHashChange c hash).scrolls = c.scrolls + 1)

/-- C8: On a hash-change (and at the startup check after Build, which runs
the same handler), a well-formed controller with a built tab strip
satisfies `HashClaim`: nothing happens when uninitialized, when the
fragment is empty, or when no panel's heading id or back-referenced
original id equals the fragment; otherwise Activate is invoked exactly once
on the first matching panel's index and the tab strip is scrolled into
view. -/
theorem claim_C8 (c : Controller) (hash : String) (hwf : wf c = true)
    (htl : c.hasTablist = true) : HashClaim c hash := by
  refine ⟨?_, ?_, ?_⟩
  · intro h
    simp only [handleHashChange]
    rw [if_pos (by tauto)]
  · intro hnone
    simp only [handleHashChange]
    by_cases hg : hash = "" ∨ c.initialized = false
    · rw [if_pos hg]
    · rw [if_neg hg, hnone]
  · intro hinit hhash hsome
    cases hidx : hashTargetIndex c (dropFirst hash) with
    | none =>
      rw [hidx] at hsome
      simp at hsome
    | some i =>
      have hg : ¬(hash = "" ∨ c.initialized = false) := by
        simp [hhash, hinit]
      have hlt : i < c.tabs.length := by
        have hp : i < c.panels.length := findIdxOpt_lt_length hidx
        rw [wf_lengths hwf]
        exact hp
      obtain ⟨ha, hwfa, hia, hlta, hlpa, _, _, _, htla, hscra, _⟩ :=
        activateTab_active c i hwf hlt
      have hred : handleHashChange c hash
          = { activateTab c (i : Int) with
              scrolls := (activateTab c (i : Int)).scrolls + 1 } := by
        simp only [handleHashChange, if_neg hg, hidx]
        rw [if_pos (by rw [htla]; exact htl)]
      simp only [Option.getD_some]
      refine ⟨hred, ?_, ?_⟩
      · rw [hred]
        show (activateTab c (i : Int)).activeIndex = i
        exact ha
      · rw [hred]
        show (activateTab c (i : Int)).scrolls + 1 = c.scrolls + 1
        rw [hscra]

theorem claim_C8_witness : HashClaim wController "#extra" :=
  claim_C8 wController "#extra" (by decide) (by decide)

/-- The guarded (second) class variant satisfies the pre-Build no-op
contract: with no tabs built and the controller uninitialized, `next`,
`previous`, `first`, `last`, the `activeIndex` setter and every
attribute-change reaction return the state unchanged — no state change, no
event, and (all operations being total) no error.  The first class variant
lacks the zero-length guards and violates this contract; see
`claim_C9`. -/
theorem guardedNav_preBuild_noop (c : Controller) (auto : Bool) (idx : Int) (attrs : Attrs)
    (name : AttrName) (oldV newV : Option String)
    (htabs : c.tabs = []) (hinit : c.initialized = false) :
    next c auto = c ∧ previous c auto = c ∧ first c auto = c ∧
    last c auto = c ∧ setActiveIndex c idx = c ∧
    attributeChangedCallback c attrs name oldV newV = c := by
  have h0 : c.tabs.length = 0 := by rw [htabs]; rfl
  refine ⟨?_, ?_, ?_, ?_, ?_, ?_⟩
  · simp only [next]
    rw [if_pos h0]
  · simp only [previous]
    rw [if_pos h0]
  · simp only [first]
    rw [if_pos h0]
  · simp only [last]
    rw [if_pos h0]
  · simp only [setActiveIndex]
    rw [if_neg ?_]
    rintro ⟨hge, hlt⟩
    rw [h0] at hlt
    omega
  · simp only [attributeChangedCallback]
    rw [if_pos (Or.inr hinit)]

theorem guardedNav_preBuild_noop_example :
    next initController true = initController ∧
    previous initController true = initController ∧
    first initController true = initController ∧
    last initController true = initController ∧
    setActiveIndex initController 7 = initController ∧
    attributeChangedCallback initController {} AttrName.defaultTab none
      (some "2") = initController := by
  exact guardedNav_preBuild_noop initController true 7 {} AttrName.defaultTab
    none (some "2") rfl rfl

/-! ## The first class variant's unguarded navigation (claim C9)

The repository's `src/tabbed-interface.js` contains two revisions of the
class.  The first variant's `next`/`previous`/`first`/`last` (lines
155-186) call `#activateTab` without the zero-length guard the second
variant added.  Before Build (`#tabs = []`, `#activeIndex = 0`,
uninitialized), `next()` computes `(0 + 1) % 0 = NaN` and `previous()`
`(0 - 1 + 0) % 0 = NaN`; inside `#activateTab(NaN)` both guards compare
false (every comparison with NaN is false), the deactivation writes are
skipped (`this.#tabs[0]` is `undefined`), `#activeIndex` and
`#focusedIndex` are overwritten with NaN, and
`this.#tabs[NaN].setAttribute(...)` then throws a TypeError before the
change event is dispatched.  `first()` and `last()` pass index 0 / -1,
which the guards reject, and then throw a TypeError at
`this.#tabs[0].focus()` / `this.#tabs[-1].focus()`.

The model below embeds exactly this: a JavaScript index is an
`Option Int` with `none` for NaN, and a thrown TypeError is an outcome
carrying the state as mutated at the throw point.  Per-tab attribute
state is omitted — at the state in question there are no tabs to carry
attributes. -/

/-- The first-variant fields the unguarded paths read and write: the tab
count, the two indices (a JavaScript number, `none` for NaN), the
initialized flag, and the number of change events dispatched. -/
structure FVState where
  tabsLen : Nat
  activeIndex : Option Int
  focusedIndex : Option Int
  initialized : Bool
  events : Nat
deriving Repr, DecidableEq

/-- Result of running a first-variant method: normal return, or a thrown
TypeError together with the state as mutated when the throw happened. -/
inductive FVOutcome where
  | ok (s : FVState)
  | typeError (s : FVState)
deriving Repr, DecidableEq

/-- Whether `this.#tabs[index]` is an element (versus `undefined`): the
index is a non-NaN integer within `[0, tabs.length)`. -/
def fvInRange (s : FVState) (index : Option Int) : Bool :=
  match index with
  | some i => decide (0 ≤ i) && decide (i < (s.tabsLen : Int))
  | none => false

/-- The first variant's `#activateTab(index)` (lines 486-523).  The range
guard `index < 0 || index >= this.#tabs.length` and the already-active
guard both compare false for NaN, so a NaN index falls through, both
indices are overwritten, and the unguarded
`this.#tabs[index].setAttribute(...)` throws a TypeError (before the
change event is dispatched).  For an in-range index the method completes
and dispatches one event. -/
def fvActivateTab (s : FVState) (index : Option Int) : FVOutcome :=
  let guard1 : Bool :=
    match index with
    | some i => decide (i < 0) || decide ((s.tabsLen : Int) ≤ i)
    | none => false
  if guard1 then .ok s
  else
    let guard2 : Bool :=
      match index, s.activeIndex with
      | some i, some a => decide (i = a) && s.initialized
      | _, _ => false
    if guard2 then .ok s
    else
      let s1 := { s with activeIndex := index, focusedIndex := index }
      if fvInRange s index then .ok { s1 with events := s1.events + 1 }
      else .typeError s1

/-- `this.#tabs[index].focus()`: a TypeError when no tab exists there. -/
def fvFocus (s : FVState) (index : Option Int) : FVOutcome :=
  if fvInRange s index then .ok s else .typeError s

/-- Sequencing with exception propagation. -/
def fvThen (o : FVOutcome) (f : FVState → FVOutcome) : FVOutcome :=
  match o with
  | .ok s => f s
  | .typeError s => .typeError s

/-- The first variant's `next()` (lines 155-159):
`(#activeIndex + 1) % #tabs.length` is NaN when the length is 0 (or the
active index is already NaN). -/
def fvNext (s : FVState) : FVOutcome :=
  let nextIndex : Option Int :=
    match s.activeIndex with
    | some a =>
      if s.tabsLen = 0 then none else some ((a + 1) % (s.tabsLen : Int))
    | none => none
  fvThen (fvActivateTab s nextIndex) (fun s1 => fvFocus s1 nextIndex)

/-- The first variant's `previous()` (lines 164-169). -/
def fvPrevious (s : FVState) : FVOutcome :=
  let prevIndex : Option Int :=
    match s.activeIndex with
    | some a =>
      if s.tabsLen = 0 then none
      else some ((a - 1 + (s.tabsLen : Int)) % (s.tabsLen : Int))
    | none => none
  fvThen (fvActivateTab s prevIndex) (fun s1 => fvFocus s1 prevIndex)

/-- The first variant's `first()` (lines 174-177). -/
def fvFirst (s : FVState) : FVOutcome :=
  fvThen (fvActivateTab s (some 0)) (fun s1 => fvFocus s1 (some 0))

/-- The first variant's `last()` (lines 182-186). -/
def fvLast (s : FVState) : FVOutcome :=
  let lastIndex : Option Int := some ((s.tabsLen : Int) - 1)
  fvThen (fvActivateTab s lastIndex) (fun s1 => fvFocus s1 lastIndex)

/-- The first variant's state before its deferred Build has run: no tabs,
both indices 0, uninitialized, no events dispatched. -/
def fvPreBuild : FVState :=
  { tabsLen := 0, activeIndex := some 0, focusedIndex := some 0,
    initialized := false, events := 0 }

/-- C9: the claim — every host-callable operation invoked before Build is
a silent no-op with no state change, no notification and no error — is
violated by the first class variant its sources cite (lines 155-186):
before Build, `next()` and `previous()` overwrite the active and focused
indices with NaN and then throw a TypeError (no event is dispatched), and
`first()` and `last()` throw a TypeError with the state unchanged.  The
spec's no-op contract is the intent; the second, guarded variant
implements it (`guardedNav_preBuild_noop`), so the first variant's
behaviour is a code bug. -/
theorem claim_C9 :
    fvNext fvPreBuild = FVOutcome.typeError
      { fvPreBuild with activeIndex := none, focusedIndex := none } ∧
    fvPrevious fvPreBuild = FVOutcome.typeError
      { fvPreBuild with activeIndex := none, focusedIndex := none } ∧
    fvFirst fvPreBuild = FVOutcome.typeError fvPreBuild ∧
    fvLast fvPreBuild = FVOutcome.typeError fvPreBuild := by
  decide

/-- C10: Every Build that parses at least one section dispatches exactly
one change event during Build itself, and its detail names the resolved
default tab (its synthesized tab id, panel id and index) — default-tab
resolution runs through Activate while the controller is still
uninitialized, so the event fires even when the resolved index is 0. -/
theorem claim_C10 (attrs : Attrs) (base : String) (nodes : List Node)
    (hs : 0 < (buildSections nodes).length) :
    (initializeTabs initController attrs base nodes).events =
      [{ tabId := mkTabId base
            (initializeTabs initController attrs base nodes).activeIndex
         tabpanelId := mkPanelId base
            (initializeTabs initController attrs base nodes).activeIndex
         tabIndex :=
            (initializeTabs initController attrs base nodes).activeIndex }]
    := by
  obtain ⟨_, _, _, _, _, hact, _, hev, _, _, _, _, _⟩ :=
    build_spec attrs base nodes hs
  rw [hev, hact]

theorem claim_C10_witness :
    (initializeTabs initController {} "w" wNodes).events =
      [{ tabId := mkTabId "w"
            (initializeTabs initController {} "w" wNodes).activeIndex
         tabpanelId := mkPanelId "w"
            (initializeTabs initController {} "w" wNodes).activeIndex
         tabIndex :=
            (initializeTabs initController {} "w" wNodes).activeIndex }] :=
  claim_C10 {} "w" wNodes (by decide)

end TabbedUI